import Mathlib

/-!
Verification of the Distill request-time pipeline.

Shallow embedding of the repository's backend sources:
  * `templates/backend/src/rag-retrieval.js` — keyword extraction, entry
    scoring, retrieval ranking, context formatting;
  * the rate limiter module (`checkRateLimit` over a two-key KV store);
  * the AI-integration module (`generateResponse`, provider registry,
    `getFallbackResponse`);
  * the worker orchestrator (`handleChat`, `getCorsHeaders`,
    `handleRequest`) and the client widget's `sendMessageToAPI` fetch shape.

JavaScript strings are modelled as `List Char` (ASCII-faithful); JS numbers
that the code uses as integer counters/timestamps are modelled as `Nat`.
Fallible paths return explicit result values.  The external effects the code
performs (KV puts, HTTP fetches) are reified as explicit write/call lists so
that theorems can speak about which effects happen and in which order.
-/

set_option maxHeartbeats 1000000

namespace Distill

/-- JavaScript strings, modelled as lists of characters. -/
abbrev Str := List Char

/-- Coerce a Lean string literal to the `Str` model. -/
def str (x : String) : Str := x.data

/-- JS `String.prototype.toLowerCase` (ASCII fragment). -/
def lowerStr (s : Str) : Str := s.map Char.toLower

/-- JS `hay.includes(pat)`: substring containment. -/
def containsSub (hay pat : Str) : Bool := decide (pat <:+: hay)

/-- JS `a || b` on an optional string field: `undefined` and the empty
string are falsy, any other string is truthy. -/
def jsOrStr (a : Option Str) (b : Str) : Str :=
  match a with
  | some s => if s = [] then b else s
  | none => b

/-! ### Knowledge entries (`rag-retrieval.js` data model) -/

/-- A knowledge-base entry as consumed by `rag-retrieval.js`.  Fields that an
entry may lack (`content`, `answer`, `question`, `title`) are `Option`s;
`tags` is always an array in well-formed corpora (the formatter calls
`entry.tags.join` unconditionally). -/
structure Entry where
  type : Str
  topic : Str
  confidence : Str
  tags : List Str
  content : Option Str := none
  answer : Option Str := none
  question : Option Str := none
  title : Option Str := none
deriving DecidableEq

/-! ### `extractKeywords` -/

/-- The stop-word set of `extractKeywords`, verbatim from the source. -/
def stopWords : List Str :=
  [str "a", str "an", str "and", str "are", str "as", str "at", str "be",
   str "by", str "for", str "from", str "has", str "he", str "she",
   str "in", str "is", str "it", str "its", str "of", str "on",
   str "that", str "the", str "to", str "was", str "will", str "with",
   str "what", str "when", str "where", str "who", str "how", str "does",
   str "did", str "can", str "could", str "would", str "should",
   str "about", str "me", str "tell", str "you", str "your", str "my",
   str "i", str "do", str "have", str "been", str "their", str "they",
   str "this", str "which", str "some"]

/-- Regex class `\w` (ASCII): letters, digits, underscore. -/
def isWordChar (c : Char) : Bool :=
  ('a' ≤ c && c ≤ 'z') || ('A' ≤ c && c ≤ 'Z') || ('0' ≤ c && c ≤ '9') || c = '_'

/-- Regex class `\s` (ASCII fragment). -/
def isSpaceChar (c : Char) : Bool :=
  c = ' ' || c = '\t' || c = '\n' || c = '\r' || c = '\x0b' || c = '\x0c'

/-- Split a string at whitespace characters.  This splits at every single
whitespace character (producing empty tokens for runs), whereas the source
splits on `/\s+/`; the two agree after `extractKeywords`' length filter,
which drops all tokens of length ≤ 2 and in particular all empty tokens. -/
def splitWsGo : Str → Str → List Str
  | [], acc => [acc.reverse]
  | c :: t, acc =>
    if isSpaceChar c then acc.reverse :: splitWsGo t [] else splitWsGo t (c :: acc)

def splitWs (s : Str) : List Str := splitWsGo s []

/-- `extractKeywords(question)`: lowercase, strip punctuation to spaces,
split on whitespace, drop short tokens and stop words. -/
def extractKeywords (question : Str) : List Str :=
  let cleaned := (lowerStr question).map
    (fun c => if isWordChar c || isSpaceChar c then c else ' ')
  (splitWs cleaned).filter
    (fun word => 2 < word.length && !(stopWords.contains word))

/-! ### `scoreEntry` -/

def qaPairType : Str := str "qa_pair"

/-- Per-keyword contribution of the four field checks in `scoreEntry`
(+3 content, +2 topic, +2 title, +1 any tag). -/
def kwFieldScore (content topic title : Str) (tags : List Str) (kw : Str) : Nat :=
  (if containsSub content kw then 3 else 0) +
  (if containsSub topic kw then 2 else 0) +
  (if containsSub title kw then 2 else 0) +
  (if tags.any (fun tag => containsSub tag kw) then 1 else 0)

/-- `const content = (entry.content || entry.answer || '').toLowerCase()`. -/
def entryContent (e : Entry) : Str := lowerStr (jsOrStr e.content (jsOrStr e.answer []))

/-- `const topic = (entry.topic || '').toLowerCase()`. -/
def entryTopic (e : Entry) : Str := lowerStr e.topic

/-- `const title = (entry.title || '').toLowerCase()`. -/
def entryTitle (e : Entry) : Str := lowerStr (jsOrStr e.title [])

/-- `const tags = (entry.tags || []).map(t => t.toLowerCase())`. -/
def entryTags (e : Entry) : List Str := e.tags.map lowerStr

/-- The `keywords.forEach` accumulation over the four field checks. -/
def baseScore (e : Entry) (keywords : List Str) : Nat :=
  (keywords.map (kwFieldScore (entryContent e) (entryTopic e) (entryTitle e)
    (entryTags e))).sum

/-- The qa-pair bonus: fires only when `entry.type === 'qa_pair'` and
`entry.question` is truthy (present and non-empty); +5 per keyword found in
the lowercased question. -/
def qaBonus (e : Entry) (keywords : List Str) : Nat :=
  if e.type = qaPairType then
    match e.question with
    | some q =>
      if q = [] then 0
      else (keywords.map (fun kw => if containsSub (lowerStr q) kw then 5 else 0)).sum
    | none => 0
  else 0

/-- `if (entry.confidence === 'verified') score += 1`. -/
def confBonus (e : Entry) : Nat :=
  if e.confidence = str "verified" then 1 else 0

/-- `scoreEntry(entry, keywords)`.  The JS `forEach` accumulations are
expressed as sums of the per-keyword contributions. -/
def scoreEntry (entry : Entry) (keywords : List Str) : Nat :=
  baseScore entry keywords + qaBonus entry keywords + confBonus entry

/-! ### `retrieveEntries` -/

/-- The ordering used by `.sort((a, b) => b.score - a.score)`: `a` may come
before `b` exactly when `a`'s score is at least `b`'s. -/
def scoreDescOrder (a b : Entry × Nat) : Prop := b.2 ≤ a.2

instance : DecidableRel scoreDescOrder := fun a b => Nat.decLe b.2 a.2

instance : IsTotal (Entry × Nat) scoreDescOrder :=
  ⟨fun a b => le_total b.2 a.2⟩

instance : IsTrans (Entry × Nat) scoreDescOrder :=
  ⟨fun _ _ _ h1 h2 => le_trans h2 h1⟩

/-- `knowledgeBase.map(entry => ({entry, score}))`. -/
def scoredCandidates (keywords : List Str) (kb : List Entry) : List (Entry × Nat) :=
  kb.map (fun e => (e, scoreEntry e keywords))

/-- `.filter(item => item.score > 0)`. -/
def positiveCandidates (keywords : List Str) (kb : List Entry) : List (Entry × Nat) :=
  (scoredCandidates keywords kb).filter (fun p => decide (0 < p.2))

/-- `.sort((a, b) => b.score - a.score)`.  ECMAScript `Array.prototype.sort`
is required to be stable, and for the consistent comparator used here the
stable descending-by-score ordering is unique; insertion sort with
`scoreDescOrder` computes exactly that ordering (ties keep list order). -/
def rankedCandidates (keywords : List Str) (kb : List Entry) : List (Entry × Nat) :=
  List.insertionSort scoreDescOrder (positiveCandidates keywords kb)

/-- `retrieveEntries(question, knowledgeBase, topN)`. -/
def retrieveEntries (question : Str) (kb : List Entry) (topN : Nat) : List Entry :=
  let keywords := extractKeywords question
  if keywords = [] then
    (kb.filter (fun e =>
      decide (e.type = str "narrative") && decide (e.topic = str "about"))).take topN
  else
    ((rankedCandidates keywords kb).take topN).map Prod.fst

/-! ### `formatEntriesForContext` -/

/-- Decimal digit character (the shape produced by JS number-to-string
conversion of the small indices used here). -/
def digitChar : Nat → Char
  | 0 => '0' | 1 => '1' | 2 => '2' | 3 => '3' | 4 => '4'
  | 5 => '5' | 6 => '6' | 7 => '7' | 8 => '8' | _ => '9'

/-- Decimal rendering of a natural number, fuel-structured so it reduces. -/
def natToCharsGo : Nat → Nat → List Char
  | 0, _ => []
  | fuel + 1, n =>
    if n < 10 then [digitChar n]
    else natToCharsGo fuel (n / 10) ++ [digitChar (n % 10)]

def natToChars (n : Nat) : Str := natToCharsGo (n + 1) n

/-- JS `Array.prototype.join(sep)`. -/
def joinSep (sep : Str) : List Str → Str
  | [] => []
  | [b] => b
  | b :: b' :: bs => b ++ sep ++ joinSep sep (b' :: bs)

/-- A JS template-literal splice of a possibly-absent field:
`undefined` renders as the text "undefined". -/
def jsTemplateOpt : Option Str → Str
  | some x => x
  | none => str "undefined"

/-- The block built for one entry by `formatEntriesForContext`, where `n` is
the 1-based entry index rendered in the `[Entry n]` marker. -/
def entryBlock (n : Nat) (e : Entry) : Str :=
  str "[Entry " ++ natToChars n ++ str "]\n" ++
  str "Type: " ++ e.type ++ str "\n" ++
  str "Topic: " ++ e.topic ++ str "\n" ++
  (match e.title with
   | some t => if t = [] then [] else str "Title: " ++ t ++ str "\n"
   | none => []) ++
  (if e.type = qaPairType then
    str "Question: " ++ jsTemplateOpt e.question ++ str "\n" ++
    str "Answer: " ++ jsTemplateOpt e.answer ++ str "\n"
  else
    str "Content: " ++ jsTemplateOpt e.content ++ str "\n") ++
  str "Confidence: " ++ e.confidence ++ str "\n" ++
  str "Tags: " ++ joinSep (str ", ") e.tags ++ str "\n"

/-- The fixed divider `'\n---\n\n'` joining entry blocks. -/
def blockDivider : Str := str "\n---\n\n"

/-- `formatEntriesForContext(entries)`: map each entry with its index to a
block, join with the divider (`join` of the empty list is the empty
string). -/
def formatEntriesForContext (entries : List Entry) : Str :=
  joinSep blockDivider (entries.enum.map (fun p => entryBlock (p.1 + 1) p.2))

/-- Index-threaded description of the block list: block `n` for the head,
then blocks `n+1, n+2, …` for the tail.  Used to state that the markers are
numbered sequentially in input order. -/
def blocksFrom : Nat → List Entry → List Str
  | _, [] => []
  | n, e :: t => entryBlock n e :: blocksFrom (n + 1) t

/-- Well-formedness used by the formatter claims: none of the entry's
rendered text fields contains the `'['` character that opens an entry-index
marker. -/
def wfEntry (e : Entry) : Prop :=
  '[' ∉ e.type ∧ '[' ∉ e.topic ∧ '[' ∉ e.confidence ∧
  (∀ t ∈ e.tags, '[' ∉ t) ∧
  (match e.title with | some s => '[' ∉ s | none => True) ∧
  (match e.content with | some s => '[' ∉ s | none => True) ∧
  (match e.question with | some s => '[' ∉ s | none => True) ∧
  (match e.answer with | some s => '[' ∉ s | none => True)

/-! ### Rate limiter (`checkRateLimit`) -/

def VISITOR_LIMIT : Nat := 10
def IP_LIMIT : Nat := 100
def HOUR_IN_SECONDS : Nat := 3600
def DAY_IN_SECONDS : Nat := 86400

/-- The JSON object `{count, resetAt}` stored under a rate-limit key. -/
structure RateWindow where
  count : Nat
  resetAt : Nat
deriving DecidableEq

/-- The two key families the limiter touches in the KV namespace:
`session:<id>` and `ip:<addr>` (always distinct keys). -/
structure KVStore where
  sess : String → Option RateWindow
  ip : String → Option RateWindow

/-- A `kv.put` performed by `checkRateLimit`, in program order. -/
inductive WriteOp where
  | sess (id : String) (w : RateWindow)
  | ip (addr : String) (w : RateWindow)
deriving DecidableEq

/-- The result object of `checkRateLimit`. -/
structure RLResult where
  allowed : Bool
  reason : Option String := none
  retryAfter : Option Nat := none
deriving DecidableEq

/-- Source: `Rate limit exceeded. You can send ${VISITOR_LIMIT} messages per
hour.` with `VISITOR_LIMIT = 10` interpolated. -/
def sessionLimitReason : String :=
  "Rate limit exceeded. You can send 10 messages per hour."

/-- Source: `IP rate limit exceeded. Maximum ${IP_LIMIT} messages per day.`
with `IP_LIMIT = 100` interpolated. -/
def ipLimitReason : String :=
  "IP rate limit exceeded. Maximum 100 messages per day."

/-- The IP-window half of `checkRateLimit`, run after the session half;
`sessWrites` are the puts already issued by the session half. -/
def ipCheck (ipAddress : String) (now : Nat) (store : KVStore)
    (sessWrites : List WriteOp) : RLResult × List WriteOp :=
  match store.ip ipAddress with
  | some d =>
    if now < d.resetAt ∧ IP_LIMIT ≤ d.count then
      ({ allowed := false, reason := some ipLimitReason,
         retryAfter := some (d.resetAt - now) }, sessWrites)
    else if now < d.resetAt then
      ({ allowed := true }, sessWrites ++ [WriteOp.ip ipAddress ⟨d.count + 1, d.resetAt⟩])
    else
      ({ allowed := true }, sessWrites ++ [WriteOp.ip ipAddress ⟨1, now + DAY_IN_SECONDS⟩])
  | none =>
    ({ allowed := true }, sessWrites ++ [WriteOp.ip ipAddress ⟨1, now + DAY_IN_SECONDS⟩])

/-- `checkRateLimit(sessionId, ipAddress, kv)` at time `now`
(`Math.floor(Date.now() / 1000)`), returning the result object together with
the `kv.put` operations it performed, in order. -/
def checkRateLimit (sessionId ipAddress : String) (now : Nat) (store : KVStore) :
    RLResult × List WriteOp :=
  match store.sess sessionId with
  | some sd =>
    if now < sd.resetAt ∧ VISITOR_LIMIT ≤ sd.count then
      ({ allowed := false, reason := some sessionLimitReason,
         retryAfter := some (sd.resetAt - now) }, [])
    else if now < sd.resetAt then
      ipCheck ipAddress now store [WriteOp.sess sessionId ⟨sd.count + 1, sd.resetAt⟩]
    else
      ipCheck ipAddress now store [WriteOp.sess sessionId ⟨1, now + HOUR_IN_SECONDS⟩]
  | none =>
    ipCheck ipAddress now store [WriteOp.sess sessionId ⟨1, now + HOUR_IN_SECONDS⟩]

def applyWrite (store : KVStore) : WriteOp → KVStore
  | WriteOp.sess id w =>
    { store with sess := fun k => if k = id then some w else store.sess k }
  | WriteOp.ip addr w =>
    { store with ip := fun k => if k = addr then some w else store.ip k }

def applyWrites (store : KVStore) (ws : List WriteOp) : KVStore :=
  ws.foldl applyWrite store

/-- One rate-limit check together with its effect on the store. -/
def rlStep (sessionId ipAddress : String) (now : Nat) (store : KVStore) :
    RLResult × KVStore :=
  let r := checkRateLimit sessionId ipAddress now store
  (r.1, applyWrites store r.2)

/-- Run a sequence of requests `(sessionId, ipAddress, time)` through the
rate limiter, threading the store. -/
def runRequests : List (String × String × Nat) → KVStore → List RLResult × KVStore
  | [], store => ([], store)
  | (sid, ipa, t) :: rest, store =>
    let r := rlStep sid ipa t store
    let rs := runRequests rest r.2
    (r.1 :: rs.1, rs.2)

/-- The KV namespace before any request: no record under any key. -/
def emptyStore : KVStore := ⟨fun _ => none, fun _ => none⟩

/-! ### Generation abstraction (`ai-integration.js`) -/

/-- The shape of a `fetch` invocation that matters to the timeout claims:
where it goes and whether the options carry an abort/timeout signal. -/
structure FetchCall where
  url : Str
  method : Str
  timeoutMs : Option Nat
deriving DecidableEq

/-- `PROVIDERS[providerName].apiUrl` plus the fetch options used in
`generateResponse`: `{ method: 'POST', headers, body }` — the options object
contains no `signal` and no timeout of any kind, hence `timeoutMs := none`.
`none` overall means the provider name is not in the registry, in which case
`generateResponse` throws before any fetch. -/
def providerFetchCall (providerName : Str) : Option FetchCall :=
  if providerName = str "openai" then
    some ⟨str "https://api.openai.com/v1/chat/completions", str "POST", none⟩
  else if providerName = str "anthropic" then
    some ⟨str "https://api.anthropic.com/v1/messages", str "POST", none⟩
  else none

/-- The widget's `sendMessageToAPI` fetch (chatbot widget source): a POST to
the worker's `/chat` endpoint with `signal: AbortSignal.timeout(15000)` —
this is where the repository's single 15-second timeout lives. -/
def sendMessageToAPICall (apiEndpoint : Str) : FetchCall :=
  ⟨apiEndpoint, str "POST", some 15000⟩

/-- Outcome of the single upstream HTTP exchange, abstracting the network:
`ok text` for a 2xx response whose body yields non-empty content, `fail` for
every failure mode (network error, non-2xx status, malformed body, empty
content — all of which `generateResponse` turns into a thrown error). -/
inductive GenOutcome where
  | ok (text : Str)
  | fail
deriving DecidableEq

/-- `getFallbackResponse()`. -/
def getFallbackResponse : Str :=
  str "I\x27m having trouble connecting right now. Please try again in a moment, or reach out directly through the contact page."

/-- The provider calls `generateResponse` dispatches: exactly one fetch when
the provider is registered, none otherwise (unknown providers throw before
fetching).  There is no retry loop in the source. -/
def generateResponseCalls (providerName : Str) : List FetchCall :=
  (providerFetchCall providerName).toList

/-- The result of `generateResponse` as seen by its caller: a thrown error
(`Except.error`) for an unknown provider or any upstream failure, otherwise
the extracted text. -/
def generateResponseResult (providerName : Str) (outcome : GenOutcome) :
    Except Unit Str :=
  match providerFetchCall providerName with
  | none => Except.error ()
  | some _ =>
    match outcome with
    | GenOutcome.ok t => Except.ok t
    | GenOutcome.fail => Except.error ()

/-! ### Orchestrator (worker source: CORS, `handleChat`, `handleRequest`) -/

/-- `ALLOWED_ORIGINS`, verbatim from the worker source. -/
def ALLOWED_ORIGINS : List Str :=
  [str "https://yoursite.com", str "https://www.yoursite.com",
   str "http://localhost:3000", str "http://localhost:8000"]

/-- The `Access-Control-Allow-Origin` value computed by `getCorsHeaders`:
echo the request origin when some allow-list entry is a prefix of it
(`origin?.startsWith(allowed)`), else fall back to `ALLOWED_ORIGINS[0]`. -/
def getCorsAllowOrigin (origin : Option Str) : Str :=
  let isAllowed :=
    match origin with
    | some o => ALLOWED_ORIGINS.any (fun allowed => allowed.isPrefixOf o)
    | none => false
  if isAllowed then
    (match origin with | some o => o | none => [])
  else ALLOWED_ORIGINS.headD []

/-- A JSON value in the request body's `message` field: a string, or
anything else (numbers, null, objects… — all rejected by validation). -/
inductive JVal where
  | jstr (s : Str)
  | jother
deriving DecidableEq

/-- Outcome of `await request.json()` plus field access: either the parse
throws, or it yields an object with an optional `message` field. -/
inductive BodyParse where
  | parseError
  | parsed (message : Option JVal)
deriving DecidableEq

/-- JS `String.prototype.trim` (ASCII whitespace fragment). -/
def trimWs (s : Str) : Str :=
  ((s.dropWhile isSpaceChar).reverse.dropWhile isSpaceChar).reverse

/-- `NO_MATCH_RESPONSE` from the worker source. -/
def NO_MATCH_RESPONSE : Str :=
  str "I don\x27t have information about that in my knowledge base. Is there something else I can help you with?"

def DEFAULT_SUGGESTIONS : List String :=
  ["What can you tell me about [YOUR NAME]?",
   "What services are available?",
   "How can I get in touch?"]

/-- The response bodies the worker can emit. -/
inductive RespBody where
  | errorBody (error : String)
  | rateLimitBody (error : String) (retryAfter : Nat)
  | chatBody (message : Str) (suggestions : List String) (entriesFound : Nat)
  | serverErrorBody (error : String) (message : Str)
  | emptyBody
  | healthBody
  | notFoundBody
deriving DecidableEq

structure HttpResponse where
  status : Nat
  body : RespBody
  corsAllowOrigin : Str
  retryAfterHeader : Option Nat := none
deriving DecidableEq

/-- Environment configuration the modelled paths read. -/
structure Env where
  aiProvider : Option Str := none
  aiModel : Option Str := none
deriving DecidableEq

/-- Everything one `handleChat` invocation produces: the HTTP response, the
provider fetches it dispatched, and the KV puts it performed. -/
structure ChatOutcome where
  resp : HttpResponse
  providerCalls : List FetchCall
  writes : List WriteOp
deriving DecidableEq

/-- `handleChat(request, env)`.  Deterministic inputs stand for the
request-derived data (`body`, `origin`, session id, client IP, clock) and
the network oracle `gen` stands for the single upstream exchange.  The
knowledge base `kb` is the startup-loaded corpus. -/
def handleChat (body : BodyParse) (origin : Option Str)
    (sessionId ipAddress : String) (env : Env) (now : Nat)
    (store : KVStore) (kb : List Entry) (gen : GenOutcome) : ChatOutcome :=
  let cors := getCorsAllowOrigin origin
  match body with
  | BodyParse.parseError =>
    -- `await request.json()` throws → the outer catch returns 500.
    ⟨⟨500, RespBody.serverErrorBody "Internal server error. Please try again."
        getFallbackResponse, cors, none⟩, [], []⟩
  | BodyParse.parsed message =>
    match message with
    | some (JVal.jstr s) =>
      if trimWs s = [] then
        ⟨⟨400, RespBody.errorBody "Please provide a message.", cors, none⟩, [], []⟩
      else
        let rl := checkRateLimit sessionId ipAddress now store
        if rl.1.allowed = false then
          ⟨⟨429, RespBody.rateLimitBody (rl.1.reason.getD "") (rl.1.retryAfter.getD 0),
             cors, rl.1.retryAfter⟩, [], rl.2⟩
        else
          let retrieved := retrieveEntries s kb 5
          if retrieved = [] then
            ⟨⟨200, RespBody.chatBody NO_MATCH_RESPONSE DEFAULT_SUGGESTIONS 0, cors, none⟩,
              [], rl.2⟩
          else
            -- formatEntriesForContext retrieved is embedded into the prompt
            -- payload; the payload's content is not observed by any claim.
            let provider := lowerStr (jsOrStr env.aiProvider (str "openai"))
            let aiResponse :=
              match generateResponseResult provider gen with
              | Except.ok t => t
              | Except.error _ => getFallbackResponse
            ⟨⟨200, RespBody.chatBody aiResponse DEFAULT_SUGGESTIONS retrieved.length,
               cors, none⟩, generateResponseCalls provider, rl.2⟩
    | some JVal.jother =>
      ⟨⟨400, RespBody.errorBody "Please provide a message.", cors, none⟩, [], []⟩
    | none =>
      ⟨⟨400, RespBody.errorBody "Please provide a message.", cors, none⟩, [], []⟩

/-- `handleRequest(request, env)`: the router (preflight, health, chat,
404), each branch attaching the CORS headers. -/
def handleRequest (method : String) (path : String) (origin : Option Str)
    (body : BodyParse) (sessionId ipAddress : String) (env : Env) (now : Nat)
    (store : KVStore) (kb : List Entry) (gen : GenOutcome) : ChatOutcome :=
  if method = "OPTIONS" then
    ⟨⟨204, RespBody.emptyBody, getCorsAllowOrigin origin, none⟩, [], []⟩
  else if method = "GET" ∧ path = "/health" then
    ⟨⟨200, RespBody.healthBody, getCorsAllowOrigin origin, none⟩, [], []⟩
  else if method = "POST" ∧ path = "/chat" then
    handleChat body origin sessionId ipAddress env now store kb gen
  else
    ⟨⟨404, RespBody.notFoundBody, getCorsAllowOrigin origin, none⟩, [], []⟩

/-! ## Theorems -/

/-! ### Scoring lemmas -/

theorem qaBonus_of_fact (e : Entry) (kws : List Str) :
    qaBonus { e with type := str "fact" } kws = 0 := by
  have ht : ({ e with type := str "fact" } : Entry).type = str "fact" := rfl
  unfold qaBonus
  rw [ht, if_neg (by decide : ¬ (str "fact" = qaPairType))]

theorem qaBonus_ge_of_mem (e : Entry) (kws : List Str) (K qt : Str)
    (hty : e.type = qaPairType) (hq : e.question = some qt) (hne : qt ≠ [])
    (hmem : K ∈ kws) (hcont : containsSub (lowerStr qt) K = true) :
    5 ≤ qaBonus e kws := by
  unfold qaBonus
  rw [if_pos hty, hq]
  simp only
  rw [if_neg hne]
  have hm : (5 : Nat) ∈ kws.map (fun kw => if containsSub (lowerStr qt) kw then 5 else 0) :=
    List.mem_map.mpr ⟨K, hmem, by rw [hcont]; rfl⟩
  exact List.single_le_sum (fun x _ => Nat.zero_le x) 5 hm

/-- C4: for a keyword list containing the (lowercase, as produced by
`extractKeywords`) keyword `K`, a question/answer entry whose stored
question text contains `K` scores at least 5 higher under `scoreEntry` than
the otherwise-identical fact entry (same content/answer text, topic, title,
tags and confidence) against the same keyword list. -/
theorem C4_qa_question_boost (e : Entry) (kws : List Str) (K qt : Str)
    (hty : e.type = qaPairType) (hq : e.question = some qt) (hne : qt ≠ [])
    (hmem : K ∈ kws) (hlow : lowerStr K = K) (hinf : K <:+: qt) :
    scoreEntry { e with type := str "fact" } kws + 5 ≤ scoreEntry e kws := by
  have hbase : baseScore { e with type := str "fact" } kws = baseScore e kws := rfl
  have hconf : confBonus { e with type := str "fact" } = confBonus e := rfl
  have hcont : containsSub (lowerStr qt) K = true := by
    have h2 : lowerStr K <:+: lowerStr qt := hinf.map Char.toLower
    rw [hlow] at h2
    exact decide_eq_true h2
  have h5 := qaBonus_ge_of_mem e kws K qt hty hq hne hmem hcont
  unfold scoreEntry
  rw [hbase, hconf, qaBonus_of_fact]
  omega

/-- Witness for C4 at a concrete qa-pair entry and keyword list. -/
theorem C4_witness :
    scoreEntry
      { type := str "fact", topic := str "skills", confidence := str "verified",
        tags := [], answer := some (str "Lean and JS"),
        question := some (str "what languages do you use") } [str "languages"] + 5 ≤
    scoreEntry
      { type := str "qa_pair", topic := str "skills", confidence := str "verified",
        tags := [], answer := some (str "Lean and JS"),
        question := some (str "what languages do you use") } [str "languages"] :=
  C4_qa_question_boost
    { type := str "qa_pair", topic := str "skills", confidence := str "verified",
      tags := [], answer := some (str "Lean and JS"),
      question := some (str "what languages do you use") }
    [str "languages"] (str "languages") (str "what languages do you use")
    rfl rfl (by decide) (by decide) (by decide) (by decide)

/-! ### Formatter lemmas -/

theorem digitChar_ne_lbracket (n : Nat) : digitChar n ≠ '[' := by
  unfold digitChar
  split <;> decide

theorem lbracket_not_mem_natToCharsGo : ∀ (fuel n : Nat), '[' ∉ natToCharsGo fuel n := by
  intro fuel
  induction fuel with
  | zero => intro n; simp [natToCharsGo]
  | succ f ih =>
    intro n
    unfold natToCharsGo
    split
    · simp only [List.mem_singleton]
      exact fun h => digitChar_ne_lbracket n h.symm
    · simp only [List.mem_append, List.mem_singleton]
      rintro (h | h)
      · exact ih _ h
      · exact digitChar_ne_lbracket _ h.symm

theorem count_lbracket_natToChars (n : Nat) : (natToChars n).count '[' = 0 :=
  List.count_eq_zero.mpr (lbracket_not_mem_natToCharsGo _ n)

theorem count_joinSep (c : Char) (sep : Str) (h : c ∉ sep) :
    ∀ bs : List Str, (joinSep sep bs).count c = (bs.map (fun b => b.count c)).sum := by
  intro bs
  induction bs with
  | nil => rfl
  | cons b bs ih =>
    cases bs with
    | nil => simp [joinSep]
    | cons b' bs' =>
      show ((b ++ sep ++ joinSep sep (b' :: bs')).count c) = _
      rw [List.count_append, List.count_append, ih,
        List.count_eq_zero.mpr h]
      simp [Nat.add_assoc]

theorem count_lbracket_entryBlock (n : Nat) (e : Entry) (hwf : wfEntry e) :
    (entryBlock n e).count '[' = 1 := by
  obtain ⟨h1, h2, h3, h4, h5, h6, h7, h8⟩ := hwf
  have htags : (joinSep (str ", ") e.tags).count '[' = 0 := by
    rw [count_joinSep _ _ (by decide)]
    refine List.sum_eq_zero ?_
    intro x hx
    obtain ⟨t, ht, rfl⟩ := List.mem_map.mp hx
    exact List.count_eq_zero.mpr (h4 t ht)
  have htitle : ((match e.title with
      | some t => if t = [] then ([] : Str) else str "Title: " ++ t ++ str "\n"
      | none => []).count '[') = 0 := by
    cases ht : e.title with
    | none => rfl
    | some t =>
      rw [ht] at h5
      by_cases he : t = []
      · simp [he]
      · simp only [if_neg he, List.count_append]
        rw [List.count_eq_zero.mpr h5]
        decide
  have hmid : ((if e.type = qaPairType then
      str "Question: " ++ jsTemplateOpt e.question ++ str "\n" ++
      str "Answer: " ++ jsTemplateOpt e.answer ++ str "\n"
    else
      str "Content: " ++ jsTemplateOpt e.content ++ str "\n").count '[') = 0 := by
    have hopt : ∀ (o : Option Str),
        (match o with | some s => '[' ∉ s | none => True) →
        (jsTemplateOpt o).count '[' = 0 := by
      intro o ho
      cases o with
      | none => decide
      | some s => exact List.count_eq_zero.mpr ho
    split
    · simp only [List.count_append]
      rw [hopt e.question h7, hopt e.answer h8]
      decide
    · simp only [List.count_append]
      rw [hopt e.content h6]
      decide
  unfold entryBlock
  simp only [List.count_append]
  rw [count_lbracket_natToChars, htags, htitle, hmid,
    List.count_eq_zero.mpr h1, List.count_eq_zero.mpr h2, List.count_eq_zero.mpr h3]
  decide

theorem enumFrom_map_blocks :
    ∀ (es : List Entry) (n : Nat),
      (List.enumFrom n es).map (fun p => entryBlock (p.1 + 1) p.2) =
        blocksFrom (n + 1) es := by
  intro es
  induction es with
  | nil => intro n; rfl
  | cons e t ih =>
    intro n
    show entryBlock (n + 1) e :: (List.enumFrom (n + 1) t).map _ = _
    rw [ih (n + 1)]
    rfl

theorem blocksFrom_counts :
    ∀ (es : List Entry) (n : Nat), (∀ e ∈ es, wfEntry e) →
      ((blocksFrom n es).map (fun b => b.count '[')).sum = es.length := by
  intro es
  induction es with
  | nil => intro n _; rfl
  | cons e t ih =>
    intro n h
    show (entryBlock n e).count '[' + ((blocksFrom (n + 1) t).map _).sum = t.length + 1
    rw [count_lbracket_entryBlock n e (h e (List.mem_cons_self e t)),
      ih (n + 1) (fun x hx => h x (List.mem_cons_of_mem e hx))]
    omega

/-- C9: `formatEntriesForContext` maps the empty sequence to the empty
string; for well-formed entries (no rendered field contains the marker
character `'['`) the output holds exactly one `[Entry i]` marker per input
entry — the marker count equals the input length — and the output is the
divider-join of the blocks numbered sequentially from 1 in input order. -/
theorem C9_format_markers (es : List Entry) (h : ∀ e ∈ es, wfEntry e) :
    formatEntriesForContext [] = [] ∧
    (formatEntriesForContext es).count '[' = es.length ∧
    formatEntriesForContext es = joinSep blockDivider (blocksFrom 1 es) := by
  have hblocks : formatEntriesForContext es = joinSep blockDivider (blocksFrom 1 es) := by
    unfold formatEntriesForContext
    rw [show es.enum = List.enumFrom 0 es from rfl, enumFrom_map_blocks]
  refine ⟨rfl, ?_, hblocks⟩
  rw [hblocks, count_joinSep _ _ (by decide), blocksFrom_counts es 1 h]

/-- Witness for C9 at a concrete two-entry corpus. -/
theorem C9_witness :
    formatEntriesForContext [] = [] ∧
    (formatEntriesForContext
      [{ type := str "fact", topic := str "skills", confidence := str "verified",
         tags := [str "lean"], content := some (str "writes Lean") },
       { type := str "qa_pair", topic := str "work", confidence := str "inferred",
         tags := [], question := some (str "what work"),
         answer := some (str "proofs") }]).count '[' =
      ([{ type := str "fact", topic := str "skills", confidence := str "verified",
          tags := [str "lean"], content := some (str "writes Lean") },
        { type := str "qa_pair", topic := str "work", confidence := str "inferred",
          tags := [], question := some (str "what work"),
          answer := some (str "proofs") }] : List Entry).length ∧
    formatEntriesForContext
      [{ type := str "fact", topic := str "skills", confidence := str "verified",
         tags := [str "lean"], content := some (str "writes Lean") },
       { type := str "qa_pair", topic := str "work", confidence := str "inferred",
         tags := [], question := some (str "what work"),
         answer := some (str "proofs") }] =
      joinSep blockDivider (blocksFrom 1
        [{ type := str "fact", topic := str "skills", confidence := str "verified",
           tags := [str "lean"], content := some (str "writes Lean") },
         { type := str "qa_pair", topic := str "work", confidence := str "inferred",
           tags := [], question := some (str "what work"),
           answer := some (str "proofs") }]) :=
  C9_format_markers _ (by
    intro e he
    fin_cases he <;> exact ⟨by decide, by decide, by decide,
      by intro t ht; fin_cases ht <;> decide, by decide, by decide, by decide, by decide⟩)

/-! ### Rate limiter: session-level denial and IP-level denial effects -/

/-- C7: a session-window denial (stored count ≥ 10 with `resetAt` in the
future) returns immediately with no KV write at all: the store is left
untouched, so neither the session record nor the IP record changes and the
IP counter is not incremented. -/
theorem C7_session_deny_no_writes (sid ipa : String) (now : Nat) (store : KVStore)
    (sd : RateWindow) (hs : store.sess sid = some sd)
    (ht : now < sd.resetAt) (hc : VISITOR_LIMIT ≤ sd.count) :
    (checkRateLimit sid ipa now store).1.allowed = false ∧
    (checkRateLimit sid ipa now store).2 = [] ∧
    (rlStep sid ipa now store).2 = store := by
  have hck : checkRateLimit sid ipa now store =
      ({ allowed := false, reason := some sessionLimitReason,
         retryAfter := some (sd.resetAt - now) }, []) := by
    unfold checkRateLimit
    rw [hs]
    simp only [if_pos (And.intro ht hc)]
  refine ⟨by rw [hck], by rw [hck], ?_⟩
  unfold rlStep
  rw [hck]
  rfl

/-- Witness for C7: a session already at its limit inside the window. -/
theorem C7_witness :
    (checkRateLimit "s" "1.2.3.4" 50
      ⟨fun k => if k = "s" then some ⟨10, 100⟩ else none, fun _ => none⟩).1.allowed = false ∧
    (checkRateLimit "s" "1.2.3.4" 50
      ⟨fun k => if k = "s" then some ⟨10, 100⟩ else none, fun _ => none⟩).2 = [] ∧
    (rlStep "s" "1.2.3.4" 50
      ⟨fun k => if k = "s" then some ⟨10, 100⟩ else none, fun _ => none⟩).2 =
      ⟨fun k => if k = "s" then some ⟨10, 100⟩ else none, fun _ => none⟩ :=
  C7_session_deny_no_writes "s" "1.2.3.4" 50
    ⟨fun k => if k = "s" then some ⟨10, 100⟩ else none, fun _ => none⟩
    ⟨10, 100⟩ (by decide) (by decide) (by decide)

/-- The session-window write that `checkRateLimit` issues when the session
window admits the request: increment inside a live window, else restart. -/
def sessAdmitWrite (sid : String) (now : Nat) (store : KVStore) : RateWindow :=
  match store.sess sid with
  | some sd =>
    if now < sd.resetAt then ⟨sd.count + 1, sd.resetAt⟩
    else ⟨1, now + HOUR_IN_SECONDS⟩
  | none => ⟨1, now + HOUR_IN_SECONDS⟩

/-- C10: when the session window admits the request but the IP window denies
it (stored IP count ≥ 100 with `resetAt` in the future), the session write
has already been issued before the denial is returned — the write list is
exactly the session put — and applying the writes leaves the session record
incremented (or restarted at 1) while the IP record is unchanged. -/
theorem C10_ip_deny_consumes_session (sid ipa : String) (now : Nat) (store : KVStore)
    (ipd : RateWindow)
    (hsOk : ∀ sd, store.sess sid = some sd → now < sd.resetAt → sd.count < VISITOR_LIMIT)
    (hi : store.ip ipa = some ipd) (ht : now < ipd.resetAt) (hc : IP_LIMIT ≤ ipd.count) :
    (checkRateLimit sid ipa now store).1.allowed = false ∧
    (checkRateLimit sid ipa now store).1.reason = some ipLimitReason ∧
    (checkRateLimit sid ipa now store).2 =
      [WriteOp.sess sid (sessAdmitWrite sid now store)] ∧
    (rlStep sid ipa now store).2.sess sid = some (sessAdmitWrite sid now store) ∧
    (rlStep sid ipa now store).2.ip ipa = store.ip ipa := by
  have hip : ∀ ws, ipCheck ipa now store ws =
      ({ allowed := false, reason := some ipLimitReason,
         retryAfter := some (ipd.resetAt - now) }, ws) := by
    intro ws
    unfold ipCheck
    rw [hi]
    simp only [if_pos (And.intro ht hc)]
  have hck : checkRateLimit sid ipa now store =
      ({ allowed := false, reason := some ipLimitReason,
         retryAfter := some (ipd.resetAt - now) },
       [WriteOp.sess sid (sessAdmitWrite sid now store)]) := by
    cases hs : store.sess sid with
    | none => simp only [checkRateLimit, sessAdmitWrite, hs, hip]
    | some sd =>
      have hdeny : ¬ (now < sd.resetAt ∧ VISITOR_LIMIT ≤ sd.count) := by
        rintro ⟨h1, h2⟩
        exact absurd h2 (Nat.not_le.mpr (hsOk sd hs h1))
      by_cases hlive : now < sd.resetAt
      · simp only [checkRateLimit, sessAdmitWrite, hs, if_neg hdeny, if_pos hlive, hip]
      · simp only [checkRateLimit, sessAdmitWrite, hs, if_neg hdeny, if_neg hlive, hip]
  refine ⟨by rw [hck], by rw [hck], by rw [hck], ?_, ?_⟩
  · unfold rlStep
    rw [hck]
    simp [applyWrites, applyWrite]
  · unfold rlStep
    rw [hck]
    simp [applyWrites, applyWrite]

/-- Witness for C10: fresh session, IP window exhausted. -/
theorem C10_witness :
    (checkRateLimit "s" "1.2.3.4" 50
      ⟨fun _ => none, fun k => if k = "1.2.3.4" then some ⟨100, 90000⟩ else none⟩).1.allowed
        = false ∧
    (checkRateLimit "s" "1.2.3.4" 50
      ⟨fun _ => none, fun k => if k = "1.2.3.4" then some ⟨100, 90000⟩ else none⟩).1.reason
        = some ipLimitReason ∧
    (checkRateLimit "s" "1.2.3.4" 50
      ⟨fun _ => none, fun k => if k = "1.2.3.4" then some ⟨100, 90000⟩ else none⟩).2 =
      [WriteOp.sess "s" (sessAdmitWrite "s" 50
        ⟨fun _ => none, fun k => if k = "1.2.3.4" then some ⟨100, 90000⟩ else none⟩)] ∧
    (rlStep "s" "1.2.3.4" 50
      ⟨fun _ => none, fun k => if k = "1.2.3.4" then some ⟨100, 90000⟩ else none⟩).2.sess "s" =
      some (sessAdmitWrite "s" 50
        ⟨fun _ => none, fun k => if k = "1.2.3.4" then some ⟨100, 90000⟩ else none⟩) ∧
    (rlStep "s" "1.2.3.4" 50
      ⟨fun _ => none, fun k => if k = "1.2.3.4" then some ⟨100, 90000⟩ else none⟩).2.ip "1.2.3.4" =
      (⟨fun _ => none, fun k => if k = "1.2.3.4" then some ⟨100, 90000⟩ else none⟩ : KVStore).ip
        "1.2.3.4" :=
  C10_ip_deny_consumes_session "s" "1.2.3.4" 50
    ⟨fun _ => none, fun k => if k = "1.2.3.4" then some ⟨100, 90000⟩ else none⟩
    ⟨100, 90000⟩ (by intro sd hsd; simp at hsd) (by decide) (by decide) (by decide)

/-! ### Rate limiter: single-step lemmas for each branch -/

theorem rlStep_fresh_fresh (sid ipa : String) (t : Nat) (store : KVStore)
    (hs : store.sess sid = none) (hi : store.ip ipa = none) :
    (rlStep sid ipa t store).1 = { allowed := true } ∧
    (rlStep sid ipa t store).2.sess sid = some ⟨1, t + HOUR_IN_SECONDS⟩ ∧
    (rlStep sid ipa t store).2.ip ipa = some ⟨1, t + DAY_IN_SECONDS⟩ ∧
    (∀ s, s ≠ sid → (rlStep sid ipa t store).2.sess s = store.sess s) ∧
    (∀ a, a ≠ ipa → (rlStep sid ipa t store).2.ip a = store.ip a) := by
  have hck : checkRateLimit sid ipa t store =
      ({ allowed := true },
       [WriteOp.sess sid ⟨1, t + HOUR_IN_SECONDS⟩,
        WriteOp.ip ipa ⟨1, t + DAY_IN_SECONDS⟩]) := by
    simp [checkRateLimit, ipCheck, hs, hi]
  unfold rlStep
  rw [hck]
  refine ⟨rfl, ?_, ?_, ?_, ?_⟩
  · simp [applyWrites, applyWrite]
  · simp [applyWrites, applyWrite]
  · intro s hsne
    simp [applyWrites, applyWrite, hsne]
  · intro a hane
    simp [applyWrites, applyWrite, hane]

theorem rlStep_incr (sid ipa : String) (t : Nat) (store : KVStore) (c R ci RI : Nat)
    (hs : store.sess sid = some ⟨c, R⟩) (hi : store.ip ipa = some ⟨ci, RI⟩)
    (htR : t < R) (hcR : c < VISITOR_LIMIT) (htRI : t < RI) (hci : ci < IP_LIMIT) :
    (rlStep sid ipa t store).1 = { allowed := true } ∧
    (rlStep sid ipa t store).2.sess sid = some ⟨c + 1, R⟩ ∧
    (rlStep sid ipa t store).2.ip ipa = some ⟨ci + 1, RI⟩ ∧
    (∀ s, s ≠ sid → (rlStep sid ipa t store).2.sess s = store.sess s) ∧
    (∀ a, a ≠ ipa → (rlStep sid ipa t store).2.ip a = store.ip a) := by
  have h1 : ¬ (t < R ∧ VISITOR_LIMIT ≤ c) := fun h => absurd h.2 (Nat.not_le.mpr hcR)
  have h2 : ¬ (t < RI ∧ IP_LIMIT ≤ ci) := fun h => absurd h.2 (Nat.not_le.mpr hci)
  have hck : checkRateLimit sid ipa t store =
      ({ allowed := true },
       [WriteOp.sess sid ⟨c + 1, R⟩, WriteOp.ip ipa ⟨ci + 1, RI⟩]) := by
    simp [checkRateLimit, ipCheck, hs, hi, if_neg h1, if_neg h2, if_pos htR, if_pos htRI]
  unfold rlStep
  rw [hck]
  refine ⟨rfl, ?_, ?_, ?_, ?_⟩
  · simp [applyWrites, applyWrite]
  · simp [applyWrites, applyWrite]
  · intro s hsne
    simp [applyWrites, applyWrite, hsne]
  · intro a hane
    simp [applyWrites, applyWrite, hane]

theorem rlStep_sess_fresh_ip_incr (sid ipa : String) (t : Nat) (store : KVStore)
    (ci RI : Nat)
    (hs : store.sess sid = none) (hi : store.ip ipa = some ⟨ci, RI⟩)
    (htRI : t < RI) (hci : ci < IP_LIMIT) :
    (rlStep sid ipa t store).1 = { allowed := true } ∧
    (rlStep sid ipa t store).2.sess sid = some ⟨1, t + HOUR_IN_SECONDS⟩ ∧
    (rlStep sid ipa t store).2.ip ipa = some ⟨ci + 1, RI⟩ ∧
    (∀ s, s ≠ sid → (rlStep sid ipa t store).2.sess s = store.sess s) ∧
    (∀ a, a ≠ ipa → (rlStep sid ipa t store).2.ip a = store.ip a) := by
  have h2 : ¬ (t < RI ∧ IP_LIMIT ≤ ci) := fun h => absurd h.2 (Nat.not_le.mpr hci)
  have hck : checkRateLimit sid ipa t store =
      ({ allowed := true },
       [WriteOp.sess sid ⟨1, t + HOUR_IN_SECONDS⟩, WriteOp.ip ipa ⟨ci + 1, RI⟩]) := by
    simp [checkRateLimit, ipCheck, hs, hi, if_neg h2, if_pos htRI]
  unfold rlStep
  rw [hck]
  refine ⟨rfl, ?_, ?_, ?_, ?_⟩
  · simp [applyWrites, applyWrite]
  · simp [applyWrites, applyWrite]
  · intro s hsne
    simp [applyWrites, applyWrite, hsne]
  · intro a hane
    simp [applyWrites, applyWrite, hane]

theorem rlStep_sess_deny (sid ipa : String) (t : Nat) (store : KVStore) (c R : Nat)
    (hs : store.sess sid = some ⟨c, R⟩) (ht : t < R) (hc : VISITOR_LIMIT ≤ c) :
    (rlStep sid ipa t store).1 =
      { allowed := false, reason := some sessionLimitReason, retryAfter := some (R - t) } ∧
    (rlStep sid ipa t store).2 = store := by
  have hck : checkRateLimit sid ipa t store =
      ({ allowed := false, reason := some sessionLimitReason,
         retryAfter := some (R - t) }, []) := by
    simp [checkRateLimit, hs, if_pos (And.intro ht hc)]
  unfold rlStep
  rw [hck]
  exact ⟨rfl, rfl⟩

theorem rlStep_ip_deny_fresh (sid ipa : String) (t : Nat) (store : KVStore) (ci RI : Nat)
    (hs : store.sess sid = none) (hi : store.ip ipa = some ⟨ci, RI⟩)
    (ht : t < RI) (hc : IP_LIMIT ≤ ci) :
    (rlStep sid ipa t store).1 =
      { allowed := false, reason := some ipLimitReason, retryAfter := some (RI - t) } ∧
    (rlStep sid ipa t store).2.sess sid = some ⟨1, t + HOUR_IN_SECONDS⟩ ∧
    (∀ a, (rlStep sid ipa t store).2.ip a = store.ip a) ∧
    (∀ s, s ≠ sid → (rlStep sid ipa t store).2.sess s = store.sess s) := by
  have hck : checkRateLimit sid ipa t store =
      ({ allowed := false, reason := some ipLimitReason, retryAfter := some (RI - t) },
       [WriteOp.sess sid ⟨1, t + HOUR_IN_SECONDS⟩]) := by
    simp [checkRateLimit, ipCheck, hs, hi, if_pos (And.intro ht hc)]
  unfold rlStep
  rw [hck]
  refine ⟨rfl, ?_, ?_, ?_⟩
  · simp [applyWrites, applyWrite]
  · intro a
    simp [applyWrites, applyWrite]
  · intro s hsne
    simp [applyWrites, applyWrite, hsne]

theorem rlStep_sess_expired (sid ipa : String) (t : Nat) (store : KVStore) (c R ci RI : Nat)
    (hs : store.sess sid = some ⟨c, R⟩) (hR : R ≤ t)
    (hi : store.ip ipa = some ⟨ci, RI⟩) (hci : ci < IP_LIMIT) :
    (rlStep sid ipa t store).1 = { allowed := true } ∧
    (rlStep sid ipa t store).2.sess sid = some ⟨1, t + HOUR_IN_SECONDS⟩ := by
  have h1 : ¬ (t < R ∧ VISITOR_LIMIT ≤ c) := fun h => absurd h.1 (Nat.not_lt.mpr hR)
  have h1' : ¬ t < R := Nat.not_lt.mpr hR
  by_cases hRI : t < RI
  · have h2 : ¬ (t < RI ∧ IP_LIMIT ≤ ci) := fun h => absurd h.2 (Nat.not_le.mpr hci)
    have hck : checkRateLimit sid ipa t store =
        ({ allowed := true },
         [WriteOp.sess sid ⟨1, t + HOUR_IN_SECONDS⟩, WriteOp.ip ipa ⟨ci + 1, RI⟩]) := by
      simp [checkRateLimit, ipCheck, hs, hi, if_neg h1, if_neg h1', if_neg h2, if_pos hRI]
    unfold rlStep
    rw [hck]
    exact ⟨rfl, by simp [applyWrites, applyWrite]⟩
  · have h2 : ¬ (t < RI ∧ IP_LIMIT ≤ ci) := fun h => absurd h.1 hRI
    have hck : checkRateLimit sid ipa t store =
        ({ allowed := true },
         [WriteOp.sess sid ⟨1, t + HOUR_IN_SECONDS⟩,
          WriteOp.ip ipa ⟨1, t + DAY_IN_SECONDS⟩]) := by
      simp [checkRateLimit, ipCheck, hs, hi, if_neg h1, if_neg h1', if_neg h2, if_neg hRI]
    unfold rlStep
    rw [hck]
    exact ⟨rfl, by simp [applyWrites, applyWrite]⟩

theorem rlStep_ip_expired (sid ipa : String) (t : Nat) (store : KVStore) (ci RI : Nat)
    (hs : store.sess sid = none) (hi : store.ip ipa = some ⟨ci, RI⟩) (hR : RI ≤ t) :
    (rlStep sid ipa t store).1 = { allowed := true } ∧
    (rlStep sid ipa t store).2.ip ipa = some ⟨1, t + DAY_IN_SECONDS⟩ := by
  have h2 : ¬ (t < RI ∧ IP_LIMIT ≤ ci) := fun h => absurd h.1 (Nat.not_lt.mpr hR)
  have h2' : ¬ t < RI := Nat.not_lt.mpr hR
  have hck : checkRateLimit sid ipa t store =
      ({ allowed := true },
       [WriteOp.sess sid ⟨1, t + HOUR_IN_SECONDS⟩,
        WriteOp.ip ipa ⟨1, t + DAY_IN_SECONDS⟩]) := by
    simp [checkRateLimit, ipCheck, hs, hi, if_neg h2, if_neg h2']
  unfold rlStep
  rw [hck]
  exact ⟨rfl, by simp [applyWrites, applyWrite]⟩

/-! ### Rate limiter: multi-request runs -/

theorem run_same_session (sid ipa : String) (R RI : Nat) (hRRI : R ≤ RI) :
    ∀ (ts : List Nat) (c : Nat) (store : KVStore),
      store.sess sid = some ⟨c, R⟩ → store.ip ipa = some ⟨c, RI⟩ →
      (∀ t ∈ ts, t < R) → c + ts.length ≤ VISITOR_LIMIT →
      (∀ r ∈ (runRequests (ts.map fun t => (sid, ipa, t)) store).1,
          r = { allowed := true }) ∧
      (runRequests (ts.map fun t => (sid, ipa, t)) store).2.sess sid =
        some ⟨c + ts.length, R⟩ ∧
      (runRequests (ts.map fun t => (sid, ipa, t)) store).2.ip ipa =
        some ⟨c + ts.length, RI⟩ := by
  intro ts
  induction ts with
  | nil =>
    intro c store hs hi _ _
    refine ⟨?_, by simpa using hs, by simpa using hi⟩
    intro r hr
    simp [runRequests] at hr
  | cons t ts ih =>
    intro c store hs hi hts hc
    have hlen : (t :: ts).length = ts.length + 1 := rfl
    have hcV : c < VISITOR_LIMIT := by omega
    have hcI : c < IP_LIMIT := lt_of_lt_of_le hcV (by decide)
    have htR : t < R := hts t (List.mem_cons_self t ts)
    have htRI : t < RI := lt_of_lt_of_le htR hRRI
    obtain ⟨h1, h2, h3, _, _⟩ := rlStep_incr sid ipa t store c R c RI hs hi htR hcV htRI hcI
    obtain ⟨iha, ihs, ihi⟩ := ih (c + 1) (rlStep sid ipa t store).2 h2 h3
      (fun t' ht' => hts t' (List.mem_cons_of_mem _ ht')) (by omega)
    simp only [List.map_cons, runRequests]
    refine ⟨?_, ?_, ?_⟩
    · intro r hr
      rcases List.mem_cons.mp hr with h | h
      · rw [h, h1]
      · exact iha r h
    · have : c + (t :: ts).length = (c + 1) + ts.length := by omega
      rw [this]
      exact ihs
    · have : c + (t :: ts).length = (c + 1) + ts.length := by omega
      rw [this]
      exact ihi

theorem run_fresh_sessions (ipa : String) (RI : Nat) :
    ∀ (reqs : List (String × Nat)) (c : Nat) (store : KVStore),
      store.ip ipa = some ⟨c, RI⟩ →
      (∀ p ∈ reqs, p.2 < RI) →
      (∀ p ∈ reqs, store.sess p.1 = none) →
      (reqs.map Prod.fst).Nodup →
      c + reqs.length ≤ IP_LIMIT →
      (∀ r ∈ (runRequests (reqs.map fun p => (p.1, ipa, p.2)) store).1,
          r = { allowed := true }) ∧
      (runRequests (reqs.map fun p => (p.1, ipa, p.2)) store).2.ip ipa =
        some ⟨c + reqs.length, RI⟩ ∧
      (∀ s, (∀ p ∈ reqs, p.1 ≠ s) →
        (runRequests (reqs.map fun p => (p.1, ipa, p.2)) store).2.sess s = store.sess s) := by
  intro reqs
  induction reqs with
  | nil =>
    intro c store hi _ _ _ _
    refine ⟨?_, by simpa using hi, fun s _ => rfl⟩
    intro r hr
    simp [runRequests] at hr
  | cons p reqs ih =>
    intro c store hi hts hfresh hnd hc
    have hcI : c < IP_LIMIT := by
      have : (p :: reqs).length = reqs.length + 1 := rfl
      omega
    have htRI : p.2 < RI := hts p (List.mem_cons_self p reqs)
    have hsp : store.sess p.1 = none := hfresh p (List.mem_cons_self p reqs)
    obtain ⟨h1, _, h3, h4, _⟩ :=
      rlStep_sess_fresh_ip_incr p.1 ipa p.2 store c RI hsp hi htRI hcI
    have hnotmem : p.1 ∉ reqs.map Prod.fst := by
      have := hnd
      rw [List.map_cons] at this
      exact (List.nodup_cons.mp this).1
    have hfresh' : ∀ q ∈ reqs, (rlStep p.1 ipa p.2 store).2.sess q.1 = none := by
      intro q hq
      have hne : q.1 ≠ p.1 := by
        intro he
        exact hnotmem (he ▸ List.mem_map_of_mem Prod.fst hq)
      rw [h4 q.1 hne]
      exact hfresh q (List.mem_cons_of_mem _ hq)
    obtain ⟨iha, ihi, ihs⟩ := ih (c + 1) (rlStep p.1 ipa p.2 store).2 h3
      (fun q hq => hts q (List.mem_cons_of_mem _ hq)) hfresh'
      ((List.nodup_cons.mp (List.map_cons Prod.fst p reqs ▸ hnd)).2)
      (by have : (p :: reqs).length = reqs.length + 1 := rfl; omega)
    simp only [List.map_cons, runRequests]
    refine ⟨?_, ?_, ?_⟩
    · intro r hr
      rcases List.mem_cons.mp hr with h | h
      · rw [h, h1]
      · exact iha r h
    · have : c + (p :: reqs).length = (c + 1) + reqs.length := by
        have : (p :: reqs).length = reqs.length + 1 := rfl
        omega
      rw [this]
      exact ihi
    · intro s hsne
      rw [ihs s (fun q hq => hsne q (List.mem_cons_of_mem _ hq)),
        h4 s (fun he => hsne p (List.mem_cons_self p reqs) he.symm)]

/-- C1: for requests sharing one session identifier (first conjunct) or one
IP address across distinct fresh sessions (second conjunct), the first N
requests inside one window are all allowed (N = the limit: 10 per
session-hour, 100 per IP-day), the (N+1)th request before `resetAt` is
denied with `retryAfter = resetAt - now > 0` and the reason naming the
triggered limit, and the first request at or after `resetAt` is allowed
with the stored window restarted at count 1 and
`resetAt = now + windowLength`. -/
theorem C1_rate_windows :
    (∀ (sid ipa : String) (t0 : Nat) (mid : List Nat) (tD tR : Nat),
      mid.length = VISITOR_LIMIT - 1 →
      (∀ t ∈ mid, t < t0 + HOUR_IN_SECONDS) →
      tD < t0 + HOUR_IN_SECONDS → t0 + HOUR_IN_SECONDS ≤ tR →
      (∀ r ∈ (runRequests ((t0 :: mid).map fun t => (sid, ipa, t)) emptyStore).1,
          r = { allowed := true }) ∧
      (t0 :: mid).length = VISITOR_LIMIT ∧
      (rlStep sid ipa tD
        (runRequests ((t0 :: mid).map fun t => (sid, ipa, t)) emptyStore).2).1.allowed
          = false ∧
      (rlStep sid ipa tD
        (runRequests ((t0 :: mid).map fun t => (sid, ipa, t)) emptyStore).2).1.reason
          = some sessionLimitReason ∧
      (rlStep sid ipa tD
        (runRequests ((t0 :: mid).map fun t => (sid, ipa, t)) emptyStore).2).1.retryAfter
          = some (t0 + HOUR_IN_SECONDS - tD) ∧
      0 < t0 + HOUR_IN_SECONDS - tD ∧
      (rlStep sid ipa tR (rlStep sid ipa tD
        (runRequests ((t0 :: mid).map fun t => (sid, ipa, t)) emptyStore).2).2).1.allowed
          = true ∧
      (rlStep sid ipa tR (rlStep sid ipa tD
        (runRequests ((t0 :: mid).map fun t => (sid, ipa, t)) emptyStore).2).2).2.sess sid
          = some ⟨1, tR + HOUR_IN_SECONDS⟩) ∧
    (∀ (ipa s0 : String) (t0 : Nat) (reqs : List (String × Nat)) (sD sR : String)
       (tD tR : Nat),
      reqs.length = IP_LIMIT - 1 →
      (∀ p ∈ reqs, p.2 < t0 + DAY_IN_SECONDS) →
      (s0 :: reqs.map Prod.fst).Nodup →
      (∀ p ∈ reqs, p.1 ≠ sD) → s0 ≠ sD →
      (∀ p ∈ reqs, p.1 ≠ sR) → s0 ≠ sR → sD ≠ sR →
      tD < t0 + DAY_IN_SECONDS → t0 + DAY_IN_SECONDS ≤ tR →
      (∀ r ∈ (runRequests
          ((s0, ipa, t0) :: reqs.map fun p => (p.1, ipa, p.2)) emptyStore).1,
          r = { allowed := true }) ∧
      ((s0, ipa, t0) :: reqs.map fun p => (p.1, ipa, p.2)).length = IP_LIMIT ∧
      (rlStep sD ipa tD (runRequests
          ((s0, ipa, t0) :: reqs.map fun p => (p.1, ipa, p.2)) emptyStore).2).1.allowed
        = false ∧
      (rlStep sD ipa tD (runRequests
          ((s0, ipa, t0) :: reqs.map fun p => (p.1, ipa, p.2)) emptyStore).2).1.reason
        = some ipLimitReason ∧
      (rlStep sD ipa tD (runRequests
          ((s0, ipa, t0) :: reqs.map fun p => (p.1, ipa, p.2)) emptyStore).2).1.retryAfter
        = some (t0 + DAY_IN_SECONDS - tD) ∧
      0 < t0 + DAY_IN_SECONDS - tD ∧
      (rlStep sR ipa tR (rlStep sD ipa tD (runRequests
          ((s0, ipa, t0) :: reqs.map fun p => (p.1, ipa, p.2)) emptyStore).2).2).1.allowed
        = true ∧
      (rlStep sR ipa tR (rlStep sD ipa tD (runRequests
          ((s0, ipa, t0) :: reqs.map fun p => (p.1, ipa, p.2)) emptyStore).2).2).2.ip ipa
        = some ⟨1, tR + DAY_IN_SECONDS⟩) := by
  constructor
  · intro sid ipa t0 mid tD tR hmid htimes htD htR
    have hV : VISITOR_LIMIT = 10 := rfl
    have hHD : HOUR_IN_SECONDS ≤ DAY_IN_SECONDS := by decide
    obtain ⟨s1a, s1sess, s1ip, _, _⟩ := rlStep_fresh_fresh sid ipa t0 emptyStore rfl rfl
    obtain ⟨runA, runS, runI⟩ :=
      run_same_session sid ipa (t0 + HOUR_IN_SECONDS) (t0 + DAY_IN_SECONDS)
        (by omega) mid 1 (rlStep sid ipa t0 emptyStore).2 s1sess s1ip htimes
        (by omega)
    have hcount : 1 + mid.length = VISITOR_LIMIT := by omega
    rw [hcount] at runS runI
    simp only [List.map_cons, runRequests]
    obtain ⟨da, dst⟩ :=
      rlStep_sess_deny sid ipa tD _ VISITOR_LIMIT (t0 + HOUR_IN_SECONDS) runS htD
        (le_refl _)
    have hs' : (rlStep sid ipa tD
        (runRequests (List.map (fun t => (sid, ipa, t)) mid)
          (rlStep sid ipa t0 emptyStore).2).2).2.sess sid =
        some ⟨VISITOR_LIMIT, t0 + HOUR_IN_SECONDS⟩ := by
      rw [dst]
      exact runS
    have hi' : (rlStep sid ipa tD
        (runRequests (List.map (fun t => (sid, ipa, t)) mid)
          (rlStep sid ipa t0 emptyStore).2).2).2.ip ipa =
        some ⟨VISITOR_LIMIT, t0 + DAY_IN_SECONDS⟩ := by
      rw [dst]
      exact runI
    obtain ⟨pa, ps⟩ :=
      rlStep_sess_expired sid ipa tR _ VISITOR_LIMIT (t0 + HOUR_IN_SECONDS)
        VISITOR_LIMIT (t0 + DAY_IN_SECONDS) hs' htR hi' (by decide)
    refine ⟨?_, by simp [List.length_cons]; omega, by rw [da], by rw [da], by rw [da],
      by omega, by rw [pa], ps⟩
    intro r hr
    rcases List.mem_cons.mp hr with h | h
    · rw [h, s1a]
    · exact runA r h
  · intro ipa s0 t0 reqs sD sR tD tR hlen htimes hnd hD1 hD2 hR1 hR2 hR3 htD htR
    have hI : IP_LIMIT = 100 := rfl
    obtain ⟨s1a, s1sess, s1ip, s1fs, _⟩ := rlStep_fresh_fresh s0 ipa t0 emptyStore rfl rfl
    have hs0notmem : s0 ∉ reqs.map Prod.fst := (List.nodup_cons.mp hnd).1
    have hfresh : ∀ p ∈ reqs, (rlStep s0 ipa t0 emptyStore).2.sess p.1 = none := by
      intro p hp
      have hne : p.1 ≠ s0 := fun he => hs0notmem (he ▸ List.mem_map_of_mem Prod.fst hp)
      rw [s1fs p.1 hne]
      rfl
    obtain ⟨runA, runI, runS⟩ :=
      run_fresh_sessions ipa (t0 + DAY_IN_SECONDS) reqs 1 (rlStep s0 ipa t0 emptyStore).2
        s1ip htimes hfresh (List.nodup_cons.mp hnd).2 (by omega)
    have hcount : 1 + reqs.length = IP_LIMIT := by omega
    rw [hcount] at runI
    have hsD : (runRequests (reqs.map fun p => (p.1, ipa, p.2))
        (rlStep s0 ipa t0 emptyStore).2).2.sess sD = none := by
      rw [runS sD hD1, s1fs sD (fun he => hD2 he.symm)]
      rfl
    simp only [List.map_cons, runRequests]
    obtain ⟨da, dsess, dip, dsf⟩ :=
      rlStep_ip_deny_fresh sD ipa tD _ IP_LIMIT (t0 + DAY_IN_SECONDS) hsD runI htD
        (le_refl _)
    have hsR : (rlStep sD ipa tD (runRequests (reqs.map fun p => (p.1, ipa, p.2))
        (rlStep s0 ipa t0 emptyStore).2).2).2.sess sR = none := by
      rw [dsf sR (fun he => hR3 he.symm), runS sR hR1, s1fs sR (fun he => hR2 he.symm)]
      rfl
    have hipR : (rlStep sD ipa tD (runRequests (reqs.map fun p => (p.1, ipa, p.2))
        (rlStep s0 ipa t0 emptyStore).2).2).2.ip ipa =
        some ⟨IP_LIMIT, t0 + DAY_IN_SECONDS⟩ := by
      rw [dip ipa, runI]
    obtain ⟨pa, pip⟩ :=
      rlStep_ip_expired sR ipa tR _ IP_LIMIT (t0 + DAY_IN_SECONDS) hsR hipR htR
    refine ⟨?_, by simp [List.length_cons]; omega, by rw [da], by rw [da], by rw [da],
      by omega, by rw [pa], pip⟩
    intro r hr
    rcases List.mem_cons.mp hr with h | h
    · rw [h, s1a]
    · exact runA r h

/-- Witness for C1: 10 session requests at time 0, denial at time 5, reset
at 3600; and 100 one-per-fresh-session IP requests, denial, reset at
86400. -/
theorem C1_witness :
    (rlStep "s" "i" 5
      (runRequests ((0 :: List.replicate 9 0).map fun t => ("s", "i", t))
        emptyStore).2).1.allowed = false ∧
    (rlStep "s" "i" 5
      (runRequests ((0 :: List.replicate 9 0).map fun t => ("s", "i", t))
        emptyStore).2).1.reason = some sessionLimitReason ∧
    (rlStep "s" "i" 3600 (rlStep "s" "i" 5
      (runRequests ((0 :: List.replicate 9 0).map fun t => ("s", "i", t))
        emptyStore).2).2).2.sess "s" = some ⟨1, 3600 + HOUR_IN_SECONDS⟩ ∧
    (rlStep "@" "i" 7
      (runRequests (("!", "i", 0) ::
        ((List.range 99).map fun k => (String.mk [Char.ofNat (65 + k)], 0)).map
          fun p => (p.1, "i", p.2)) emptyStore).2).1.reason = some ipLimitReason ∧
    (rlStep "#" "i" 86400 (rlStep "@" "i" 7
      (runRequests (("!", "i", 0) ::
        ((List.range 99).map fun k => (String.mk [Char.ofNat (65 + k)], 0)).map
          fun p => (p.1, "i", p.2)) emptyStore).2).2).2.ip "i" =
      some ⟨1, 86400 + DAY_IN_SECONDS⟩ := by
  obtain ⟨hs, hi⟩ := C1_rate_windows
  have h1 := hs "s" "i" 0 (List.replicate 9 0) 5 3600 (by decide) (by decide)
    (by decide) (by decide)
  have h2 := hi "i" "!" 0
    ((List.range 99).map fun k => (String.mk [Char.ofNat (65 + k)], 0)) "@" "#" 7 86400
    (by decide) (by decide) (by decide) (by decide) (by decide) (by decide)
    (by decide) (by decide) (by decide) (by decide)
  exact ⟨h1.2.2.1, h1.2.2.2.1, h1.2.2.2.2.2.2.2, h2.2.2.2.1, h2.2.2.2.2.2.2.2⟩

/-! ### Ranking lemmas -/

theorem mem_positiveCandidates {kws : List Str} {kb : List Entry} {p : Entry × Nat}
    (h : p ∈ positiveCandidates kws kb) :
    p.1 ∈ kb ∧ p.2 = scoreEntry p.1 kws ∧ 0 < p.2 := by
  unfold positiveCandidates scoredCandidates at h
  obtain ⟨hm, hp⟩ := List.mem_filter.mp h
  obtain ⟨e, he, heq⟩ := List.mem_map.mp hm
  refine ⟨?_, ?_, of_decide_eq_true hp⟩
  · rw [← heq]
    exact he
  · rw [← heq]

theorem mem_rankedCandidates {kws : List Str} {kb : List Entry} {p : Entry × Nat}
    (h : p ∈ rankedCandidates kws kb) :
    p.1 ∈ kb ∧ p.2 = scoreEntry p.1 kws ∧ 0 < p.2 :=
  mem_positiveCandidates ((List.perm_insertionSort _ _).subset h)

theorem rankedCandidates_sorted (kws : List Str) (kb : List Entry) :
    (rankedCandidates kws kb).Pairwise scoreDescOrder :=
  List.sorted_insertionSort scoreDescOrder (positiveCandidates kws kb)

theorem filter_orderedInsert_pos (sc : Nat) (x : Entry × Nat) (hx : x.2 = sc) :
    ∀ l : List (Entry × Nat),
      (List.orderedInsert scoreDescOrder x l).filter (fun p => p.2 == sc) =
        x :: l.filter (fun p => p.2 == sc) := by
  intro l
  induction l with
  | nil => simp [List.orderedInsert, hx]
  | cons b t ih =>
    by_cases hr : scoreDescOrder x b
    · simp only [List.orderedInsert, if_pos hr, List.filter_cons]
      rw [if_pos (by simp [hx])]
    · simp only [List.orderedInsert, if_neg hr, List.filter_cons]
      have hb : ¬ (b.2 == sc) = true := by
        simp only [beq_iff_eq]
        intro hbe
        exact hr (le_of_lt (by
          have : x.2 < b.2 := Nat.lt_of_not_le (fun hle => hr hle)
          omega))
      rw [if_neg hb, ih, if_neg hb]

theorem filter_orderedInsert_ne (sc : Nat) (x : Entry × Nat) (hx : x.2 ≠ sc) :
    ∀ l : List (Entry × Nat),
      (List.orderedInsert scoreDescOrder x l).filter (fun p => p.2 == sc) =
        l.filter (fun p => p.2 == sc) := by
  intro l
  have hxf : ¬ (x.2 == sc) = true := by
    simp only [beq_iff_eq]
    exact hx
  induction l with
  | nil => simp [List.orderedInsert, hxf]
  | cons b t ih =>
    by_cases hr : scoreDescOrder x b
    · simp only [List.orderedInsert, if_pos hr, List.filter_cons, if_neg hxf]
    · simp only [List.orderedInsert, if_neg hr, List.filter_cons]
      rw [ih]

theorem insertionSort_filter_score (sc : Nat) :
    ∀ l : List (Entry × Nat),
      (List.insertionSort scoreDescOrder l).filter (fun p => p.2 == sc) =
        l.filter (fun p => p.2 == sc) := by
  intro l
  induction l with
  | nil => rfl
  | cons x t ih =>
    show (List.orderedInsert scoreDescOrder x
      (List.insertionSort scoreDescOrder t)).filter (fun p => p.2 == sc) = _
    by_cases hx : x.2 = sc
    · rw [filter_orderedInsert_pos sc x hx, ih, List.filter_cons,
        if_pos (by simp [hx])]
    · rw [filter_orderedInsert_ne sc x hx, ih, List.filter_cons,
        if_neg (by simp [hx])]

theorem retrieveEntries_of_keywords {q : Str} (kb : List Entry) (topN : Nat)
    (h : extractKeywords q ≠ []) :
    retrieveEntries q kb topN =
      ((rankedCandidates (extractKeywords q) kb).take topN).map Prod.fst := by
  unfold retrieveEntries
  rw [if_neg h]

theorem mem_retrieveEntries {q : Str} {kb : List Entry} {topN : Nat} {e : Entry}
    (h : extractKeywords q ≠ []) (he : e ∈ retrieveEntries q kb topN) :
    e ∈ kb ∧ 0 < scoreEntry e (extractKeywords q) := by
  rw [retrieveEntries_of_keywords kb topN h] at he
  obtain ⟨p, hp, hpe⟩ := List.mem_map.mp he
  have hpr : p ∈ rankedCandidates (extractKeywords q) kb :=
    (List.take_sublist topN _).subset hp
  obtain ⟨h1, h2, h3⟩ := mem_rankedCandidates hpr
  rw [← hpe]
  exact ⟨h1, by rw [← h2]; exact h3⟩

/-- C2: for every question with at least one extracted keyword, every corpus
and every `topN`, `retrieveEntries` returns at most `topN` entries, none of
score 0, in non-increasing score order, and within each equal-score class
the result order is a subsequence of the corpus order (JS `sort` is stable,
so ties keep corpus order; truncation can only drop a suffix of each
class). -/
theorem C2_retrieve_ranked (q : Str) (kb : List Entry) (topN : Nat)
    (h : extractKeywords q ≠ []) :
    (retrieveEntries q kb topN).length ≤ topN ∧
    (∀ e ∈ retrieveEntries q kb topN, scoreEntry e (extractKeywords q) ≠ 0) ∧
    (retrieveEntries q kb topN).Pairwise
      (fun a b => scoreEntry b (extractKeywords q) ≤ scoreEntry a (extractKeywords q)) ∧
    (∀ sc : Nat,
      List.Sublist
        ((retrieveEntries q kb topN).filter
          (fun e => scoreEntry e (extractKeywords q) == sc))
        (kb.filter (fun e => scoreEntry e (extractKeywords q) == sc))) := by
  refine ⟨?_, ?_, ?_, ?_⟩
  · rw [retrieveEntries_of_keywords kb topN h, List.length_map]
    have := List.length_take topN (rankedCandidates (extractKeywords q) kb)
    omega
  · intro e he
    obtain ⟨-, hpos⟩ := mem_retrieveEntries h he
    omega
  · rw [retrieveEntries_of_keywords kb topN h]
    have hsorted := rankedCandidates_sorted (extractKeywords q) kb
    have htake : ((rankedCandidates (extractKeywords q) kb).take topN).Pairwise scoreDescOrder :=
      hsorted.sublist (List.take_sublist topN _)
    rw [List.pairwise_map]
    refine List.Pairwise.imp_of_mem ?_ htake
    intro a b ha hb hr
    have ha' := mem_rankedCandidates ((List.take_sublist topN _).subset ha)
    have hb' := mem_rankedCandidates ((List.take_sublist topN _).subset hb)
    rw [← ha'.2.1, ← hb'.2.1]
    exact hr
  · intro sc
    rw [retrieveEntries_of_keywords kb topN h]
    have hstep1 :
        (((rankedCandidates (extractKeywords q) kb).take topN).map Prod.fst).filter
          (fun e => scoreEntry e (extractKeywords q) == sc) =
        (((rankedCandidates (extractKeywords q) kb).take topN).filter
          (fun p => scoreEntry p.1 (extractKeywords q) == sc)).map Prod.fst := by
      rw [List.filter_map]
      rfl
    have hstep2 :
        ((rankedCandidates (extractKeywords q) kb).take topN).filter
          (fun p => scoreEntry p.1 (extractKeywords q) == sc) =
        ((rankedCandidates (extractKeywords q) kb).take topN).filter (fun p => p.2 == sc) := by
      refine List.filter_congr ?_
      intro p hp
      have := mem_rankedCandidates ((List.take_sublist topN _).subset hp)
      rw [this.2.1]
    have hstep3 :
        List.Sublist
          (((rankedCandidates (extractKeywords q) kb).take topN).filter (fun p => p.2 == sc))
          ((rankedCandidates (extractKeywords q) kb).filter (fun p => p.2 == sc)) :=
      (List.take_sublist topN _).filter _
    have hstep4 :
        (rankedCandidates (extractKeywords q) kb).filter (fun p => p.2 == sc) =
          (positiveCandidates (extractKeywords q) kb).filter (fun p => p.2 == sc) :=
      insertionSort_filter_score sc _
    have hstep5 :
        (positiveCandidates (extractKeywords q) kb).filter (fun p => p.2 == sc) =
          (scoredCandidates (extractKeywords q) kb).filter
            (fun p => (p.2 == sc) && decide (0 < p.2)) := by
      unfold positiveCandidates
      rw [List.filter_filter]
    have hstep6 :
        ((scoredCandidates (extractKeywords q) kb).filter
            (fun p => (p.2 == sc) && decide (0 < p.2))).map Prod.fst =
          kb.filter
            (fun e => (scoreEntry e (extractKeywords q) == sc) && decide (0 < scoreEntry e (extractKeywords q))) := by
      unfold scoredCandidates
      rw [List.filter_map, List.map_map]
      have : (Prod.fst ∘ fun e => (e, scoreEntry e (extractKeywords q))) = id := rfl
      rw [this, List.map_id]
      rfl
    have hstep7 :
        List.Sublist
          (kb.filter
            (fun e => (scoreEntry e (extractKeywords q) == sc) && decide (0 < scoreEntry e (extractKeywords q))))
          (kb.filter (fun e => scoreEntry e (extractKeywords q) == sc)) := by
      have heq : kb.filter
          (fun e => (scoreEntry e (extractKeywords q) == sc) && decide (0 < scoreEntry e (extractKeywords q))) =
          (kb.filter (fun e => decide (0 < scoreEntry e (extractKeywords q)))).filter
            (fun e => scoreEntry e (extractKeywords q) == sc) := by
        rw [List.filter_filter]
      rw [heq]
      exact (List.filter_sublist kb).filter _
    rw [hstep1, hstep2]
    have h8 : ((rankedCandidates (extractKeywords q) kb).filter (fun p => p.2 == sc)).map Prod.fst =
        kb.filter
          (fun e => (scoreEntry e (extractKeywords q) == sc) && decide (0 < scoreEntry e (extractKeywords q))) := by
      rw [hstep4, hstep5]
      exact hstep6
    have h9 := hstep3.map Prod.fst
    rw [h8] at h9
    exact h9.trans hstep7

/-- Witness for C2 at a concrete three-entry corpus and `topN = 2`. -/
theorem C2_witness :
    (retrieveEntries (str "know code")
      [{ type := str "fact", topic := str "skills", confidence := str "inferred",
         tags := [], content := some (str "nothing") },
       { type := str "fact", topic := str "skills", confidence := str "verified",
         tags := [], content := some (str "code here") },
       { type := str "fact", topic := str "other", confidence := str "verified",
         tags := [], content := some (str "more code") }] 2).length ≤ 2 ∧
    (∀ e ∈ retrieveEntries (str "know code")
      [{ type := str "fact", topic := str "skills", confidence := str "inferred",
         tags := [], content := some (str "nothing") },
       { type := str "fact", topic := str "skills", confidence := str "verified",
         tags := [], content := some (str "code here") },
       { type := str "fact", topic := str "other", confidence := str "verified",
         tags := [], content := some (str "more code") }] 2,
      scoreEntry e (extractKeywords (str "know code")) ≠ 0) ∧
    (retrieveEntries (str "know code")
      [{ type := str "fact", topic := str "skills", confidence := str "inferred",
         tags := [], content := some (str "nothing") },
       { type := str "fact", topic := str "skills", confidence := str "verified",
         tags := [], content := some (str "code here") },
       { type := str "fact", topic := str "other", confidence := str "verified",
         tags := [], content := some (str "more code") }] 2).Pairwise
      (fun a b => scoreEntry b (extractKeywords (str "know code")) ≤
        scoreEntry a (extractKeywords (str "know code"))) ∧
    (∀ sc : Nat,
      List.Sublist
        ((retrieveEntries (str "know code")
          [{ type := str "fact", topic := str "skills", confidence := str "inferred",
             tags := [], content := some (str "nothing") },
           { type := str "fact", topic := str "skills", confidence := str "verified",
             tags := [], content := some (str "code here") },
           { type := str "fact", topic := str "other", confidence := str "verified",
             tags := [], content := some (str "more code") }] 2).filter
          (fun e => scoreEntry e (extractKeywords (str "know code")) == sc))
        ([{ type := str "fact", topic := str "skills", confidence := str "inferred",
            tags := [], content := some (str "nothing") },
          { type := str "fact", topic := str "skills", confidence := str "verified",
            tags := [], content := some (str "code here") },
          { type := str "fact", topic := str "other", confidence := str "verified",
            tags := [], content := some (str "more code") }].filter
          (fun e => scoreEntry e (extractKeywords (str "know code")) == sc))) :=
  C2_retrieve_ranked (str "know code")
    [{ type := str "fact", topic := str "skills", confidence := str "inferred",
       tags := [], content := some (str "nothing") },
     { type := str "fact", topic := str "skills", confidence := str "verified",
       tags := [], content := some (str "code here") },
     { type := str "fact", topic := str "other", confidence := str "verified",
       tags := [], content := some (str "more code") }] 2 (by decide)

/-- C5: when the extracted keywords match none of an entry's content, topic,
title, tags or question fields, a "verified" entry scores exactly 1 and
survives `retrieveEntries`' positive-score filter (alone in a corpus it is
returned), while an "inferred" or "approximate" entry scores 0 and never
appears in the results. -/
theorem C5_verified_floor (q : Str) (kb : List Entry) (topN : Nat) (e : Entry)
    (hkw : extractKeywords q ≠ [])
    (hnone : ∀ kw ∈ extractKeywords q,
      containsSub (entryContent e) kw = false ∧
      containsSub (entryTopic e) kw = false ∧
      containsSub (entryTitle e) kw = false ∧
      (entryTags e).any (fun tag => containsSub tag kw) = false ∧
      (match e.question with
       | some qt => containsSub (lowerStr qt) kw = false
       | none => True)) :
    (e.confidence = str "verified" →
      scoreEntry e (extractKeywords q) = 1 ∧
      (e ∈ kb → (e, 1) ∈ positiveCandidates (extractKeywords q) kb) ∧
      (0 < topN → retrieveEntries q [e] topN = [e])) ∧
    ((e.confidence = str "inferred" ∨ e.confidence = str "approximate") →
      scoreEntry e (extractKeywords q) = 0 ∧ e ∉ retrieveEntries q kb topN) := by
  have hbase : baseScore e (extractKeywords q) = 0 := by
    unfold baseScore
    refine List.sum_eq_zero ?_
    intro x hx
    obtain ⟨kw, hkwm, rfl⟩ := List.mem_map.mp hx
    obtain ⟨h1, h2, h3, h4, -⟩ := hnone kw hkwm
    unfold kwFieldScore
    rw [h1, h2, h3, h4]
    rfl
  have hqa : qaBonus e (extractKeywords q) = 0 := by
    cases hq : e.question with
    | none =>
      unfold qaBonus
      rw [hq]
      split <;> rfl
    | some qt =>
      unfold qaBonus
      rw [hq]
      split
      · show (if qt = [] then 0
          else ((extractKeywords q).map
            (fun kw => if containsSub (lowerStr qt) kw then 5 else 0)).sum) = 0
        by_cases hqt : qt = []
        · rw [if_pos hqt]
        · rw [if_neg hqt]
          refine List.sum_eq_zero ?_
          intro x hx
          obtain ⟨kw, hkwm, rfl⟩ := List.mem_map.mp hx
          have h5 := (hnone kw hkwm).2.2.2.2
          rw [hq] at h5
          simp only at h5
          rw [h5]
          rfl
      · rfl
  constructor
  · intro hconf
    have hscore : scoreEntry e (extractKeywords q) = 1 := by
      unfold scoreEntry confBonus
      rw [hbase, hqa, if_pos hconf]
    refine ⟨hscore, ?_, ?_⟩
    · intro he
      unfold positiveCandidates scoredCandidates
      refine List.mem_filter.mpr ⟨?_, rfl⟩
      exact List.mem_map.mpr ⟨e, he, by rw [hscore]⟩
    · intro htop
      rw [retrieveEntries_of_keywords [e] topN hkw]
      have h1 : scoredCandidates (extractKeywords q) [e] = [(e, 1)] := by
        unfold scoredCandidates
        rw [List.map_singleton, hscore]
      have h2 : positiveCandidates (extractKeywords q) [e] = [(e, 1)] := by
        unfold positiveCandidates
        rw [h1]
        rfl
      have h3 : rankedCandidates (extractKeywords q) [e] = [(e, 1)] := by
        unfold rankedCandidates
        rw [h2]
        rfl
      rw [h3, List.take_of_length_le (by simpa using htop)]
      rfl
  · intro hconf
    have hcb : confBonus e = 0 := by
      unfold confBonus
      rw [if_neg]
      rcases hconf with h | h <;> rw [h] <;> decide
    have hscore : scoreEntry e (extractKeywords q) = 0 := by
      unfold scoreEntry
      rw [hbase, hqa, hcb]
    refine ⟨hscore, ?_⟩
    intro he
    obtain ⟨-, hpos⟩ := mem_retrieveEntries hkw he
    omega

/-- Witness for C5 at a concrete verified zero-match entry. -/
theorem C5_witness :
    ((str "verified" : Str) = str "verified" →
      scoreEntry
        { type := str "fact", topic := str "x", confidence := str "verified",
          tags := [], content := some (str "nothing") }
        (extractKeywords (str "code stuff")) = 1 ∧
      (({ type := str "fact", topic := str "x", confidence := str "verified",
          tags := [], content := some (str "nothing") } : Entry) ∈
          [({ type := str "fact", topic := str "x", confidence := str "verified",
              tags := [], content := some (str "nothing") } : Entry)] →
        (({ type := str "fact", topic := str "x", confidence := str "verified",
            tags := [], content := some (str "nothing") } : Entry), 1) ∈
          positiveCandidates (extractKeywords (str "code stuff"))
            [{ type := str "fact", topic := str "x", confidence := str "verified",
               tags := [], content := some (str "nothing") }]) ∧
      (0 < 3 →
        retrieveEntries (str "code stuff")
          [{ type := str "fact", topic := str "x", confidence := str "verified",
             tags := [], content := some (str "nothing") }] 3 =
          [{ type := str "fact", topic := str "x", confidence := str "verified",
             tags := [], content := some (str "nothing") }])) ∧
    (((str "verified" : Str) = str "inferred" ∨
        (str "verified" : Str) = str "approximate") →
      scoreEntry
        { type := str "fact", topic := str "x", confidence := str "verified",
          tags := [], content := some (str "nothing") }
        (extractKeywords (str "code stuff")) = 0 ∧
      ({ type := str "fact", topic := str "x", confidence := str "verified",
         tags := [], content := some (str "nothing") } : Entry) ∉
        retrieveEntries (str "code stuff")
          [{ type := str "fact", topic := str "x", confidence := str "verified",
             tags := [], content := some (str "nothing") }] 3) :=
  C5_verified_floor (str "code stuff")
    [{ type := str "fact", topic := str "x", confidence := str "verified",
       tags := [], content := some (str "nothing") }] 3
    { type := str "fact", topic := str "x", confidence := str "verified",
      tags := [], content := some (str "nothing") }
    (by decide) (by decide)

/-! ### CORS lemmas -/

theorem getCors_none : getCorsAllowOrigin none = str "https://yoursite.com" := rfl

theorem getCors_some (o : Str) :
    getCorsAllowOrigin (some o) =
      (if ALLOWED_ORIGINS.any (fun allowed => allowed.isPrefixOf o) then o
       else ALLOWED_ORIGINS.headD []) := rfl

theorem getCors_some_spec (o : Str) :
    (getCorsAllowOrigin (some o) = o ↔ ∃ a ∈ ALLOWED_ORIGINS, a <+: o) ∧
    ((¬ ∃ a ∈ ALLOWED_ORIGINS, a <+: o) →
      getCorsAllowOrigin (some o) = ALLOWED_ORIGINS.headD []) := by
  have hiff : ALLOWED_ORIGINS.any (fun allowed => allowed.isPrefixOf o) = true ↔
      ∃ a ∈ ALLOWED_ORIGINS, a <+: o := by
    rw [List.any_eq_true]
    exact ⟨fun ⟨a, ha, hp⟩ => ⟨a, ha, List.isPrefixOf_iff_prefix.mp hp⟩,
           fun ⟨a, ha, hp⟩ => ⟨a, ha, List.isPrefixOf_iff_prefix.mpr hp⟩⟩
  rw [getCors_some]
  cases hany : ALLOWED_ORIGINS.any (fun allowed => allowed.isPrefixOf o) with
  | true =>
    have hex := hiff.mp hany
    constructor
    · exact iff_of_true (by rw [if_pos rfl]) hex
    · intro hno
      exact absurd hex hno
  | false =>
    have hnot : ¬ ∃ a ∈ ALLOWED_ORIGINS, a <+: o := by
      intro hx
      rw [hiff.mpr hx] at hany
      cases hany
    constructor
    · refine iff_of_false ?_ hnot
      intro heq
      have heq' : ALLOWED_ORIGINS.headD [] = o := by
        rw [← heq]
        rfl
      apply hnot
      refine ⟨str "https://yoursite.com", by decide, ?_⟩
      have : (str "https://yoursite.com" : Str) = ALLOWED_ORIGINS.headD [] := rfl
      rw [this, heq']
    · intro _
      rfl

theorem handleChat_cors (body : BodyParse) (origin : Option Str)
    (sid ipa : String) (env : Env) (now : Nat) (store : KVStore) (kb : List Entry)
    (gen : GenOutcome) :
    (handleChat body origin sid ipa env now store kb gen).resp.corsAllowOrigin =
      getCorsAllowOrigin origin := by
  unfold handleChat
  cases body with
  | parseError => rfl
  | parsed message =>
    cases message with
    | none => rfl
    | some v =>
      cases v with
      | jother => rfl
      | jstr s =>
        dsimp only
        split
        · rfl
        · split
          · rfl
          · split
            · rfl
            · rfl

theorem handleRequest_cors (method path : String) (origin : Option Str)
    (body : BodyParse) (sid ipa : String) (env : Env) (now : Nat) (store : KVStore)
    (kb : List Entry) (gen : GenOutcome) :
    (handleRequest method path origin body sid ipa env now store kb gen).resp.corsAllowOrigin =
      getCorsAllowOrigin origin := by
  unfold handleRequest
  split
  · rfl
  · split
    · rfl
    · split
      · exact handleChat_cors body origin sid ipa env now store kb gen
      · rfl

/-- C8: on every response the worker produces (preflight, health, chat in
all its outcomes, 404), the `Access-Control-Allow-Origin` header equals the
request's Origin exactly when some allow-list entry is a prefix of that
Origin; otherwise — including when no Origin header is present — it equals
the first allow-list entry. -/
theorem C8_cors_policy (method path : String) (origin : Option Str) (body : BodyParse)
    (sid ipa : String) (env : Env) (now : Nat) (store : KVStore) (kb : List Entry)
    (gen : GenOutcome) :
    (∀ o, origin = some o →
      (((handleRequest method path origin body sid ipa env now store kb
          gen).resp.corsAllowOrigin = o) ↔ ∃ a ∈ ALLOWED_ORIGINS, a <+: o)) ∧
    (∀ o, origin = some o → (¬ ∃ a ∈ ALLOWED_ORIGINS, a <+: o) →
      (handleRequest method path origin body sid ipa env now store kb
        gen).resp.corsAllowOrigin = ALLOWED_ORIGINS.headD []) ∧
    (origin = none →
      (handleRequest method path origin body sid ipa env now store kb
        gen).resp.corsAllowOrigin = ALLOWED_ORIGINS.headD []) := by
  have hc := handleRequest_cors method path origin body sid ipa env now store kb gen
  refine ⟨?_, ?_, ?_⟩
  · intro o ho
    rw [hc, ho]
    exact (getCors_some_spec o).1
  · intro o ho hno
    rw [hc, ho]
    exact (getCors_some_spec o).2 hno
  · intro ho
    rw [hc, ho]
    rfl

/-- Witness for C8: an allowed origin is echoed on a preflight response, and
a missing origin gets the first allow-list entry on a 404 response. -/
theorem C8_witness :
    (handleRequest "OPTIONS" "/chat" (some (str "https://yoursite.com/page"))
      BodyParse.parseError "s" "i" {} 0 emptyStore [] GenOutcome.fail).resp.corsAllowOrigin =
      str "https://yoursite.com/page" ∧
    (handleRequest "GET" "/nope" none BodyParse.parseError "s" "i" {} 0 emptyStore []
      GenOutcome.fail).resp.corsAllowOrigin = ALLOWED_ORIGINS.headD [] := by
  constructor
  · exact ((C8_cors_policy "OPTIONS" "/chat" (some (str "https://yoursite.com/page"))
      BodyParse.parseError "s" "i" {} 0 emptyStore [] GenOutcome.fail).1
      (str "https://yoursite.com/page") rfl).mpr
      ⟨str "https://yoursite.com", by decide, by decide⟩
  · exact (C8_cors_policy "GET" "/nope" none BodyParse.parseError "s" "i" {} 0 emptyStore []
      GenOutcome.fail).2.2 rfl

/-! ### Generation failure handling -/

theorem generateResponseResult_fail (p : Str) :
    generateResponseResult p GenOutcome.fail = Except.error () := by
  unfold generateResponseResult
  cases providerFetchCall p <;> rfl

theorem handleChat_genFail (origin : Option Str) (sid ipa : String) (env : Env)
    (now : Nat) (store : KVStore) (kb : List Entry) (s : Str)
    (h1 : trimWs s ≠ [])
    (h2 : (checkRateLimit sid ipa now store).1.allowed = true)
    (h3 : retrieveEntries s kb 5 ≠ []) :
    (handleChat (BodyParse.parsed (some (JVal.jstr s))) origin sid ipa env now store kb
      GenOutcome.fail).resp.status = 200 ∧
    (handleChat (BodyParse.parsed (some (JVal.jstr s))) origin sid ipa env now store kb
      GenOutcome.fail).resp.body =
      RespBody.chatBody getFallbackResponse DEFAULT_SUGGESTIONS
        (retrieveEntries s kb 5).length := by
  have h2' : ¬ ((checkRateLimit sid ipa now store).1.allowed = false) := by
    rw [h2]
    simp
  unfold handleChat
  dsimp only
  rw [if_neg h1, if_neg h2', if_neg h3, generateResponseResult_fail]
  exact ⟨rfl, rfl⟩

/-- C6: for a chat request that passes validation and rate limiting and
retrieves at least one entry, a failed generation call (the oracle value
covering network errors, non-2xx statuses, malformed and empty bodies)
still yields HTTP status 200 with the fixed fallback text as the message —
never an HTTP error status. -/
theorem C6_generation_failure_is_200 (origin : Option Str) (sid ipa : String)
    (env : Env) (now : Nat) (store : KVStore) (kb : List Entry) (s : Str)
    (h1 : trimWs s ≠ [])
    (h2 : (checkRateLimit sid ipa now store).1.allowed = true)
    (h3 : retrieveEntries s kb 5 ≠ []) :
    (handleChat (BodyParse.parsed (some (JVal.jstr s))) origin sid ipa env now store kb
      GenOutcome.fail).resp.status = 200 ∧
    (handleChat (BodyParse.parsed (some (JVal.jstr s))) origin sid ipa env now store kb
      GenOutcome.fail).resp.body =
      RespBody.chatBody getFallbackResponse DEFAULT_SUGGESTIONS
        (retrieveEntries s kb 5).length :=
  handleChat_genFail origin sid ipa env now store kb s h1 h2 h3

/-- Witness for C6 at a concrete matching corpus and failed generation. -/
theorem C6_witness :
    (handleChat (BodyParse.parsed (some (JVal.jstr (str "know code")))) none "s" "i" {} 0
      emptyStore
      [{ type := str "fact", topic := str "skills", confidence := str "verified",
         tags := [], content := some (str "code here") }]
      GenOutcome.fail).resp.status = 200 ∧
    (handleChat (BodyParse.parsed (some (JVal.jstr (str "know code")))) none "s" "i" {} 0
      emptyStore
      [{ type := str "fact", topic := str "skills", confidence := str "verified",
         tags := [], content := some (str "code here") }]
      GenOutcome.fail).resp.body =
      RespBody.chatBody getFallbackResponse DEFAULT_SUGGESTIONS
        (retrieveEntries (str "know code")
          [{ type := str "fact", topic := str "skills", confidence := str "verified",
             tags := [], content := some (str "code here") }] 5).length :=
  C6_generation_failure_is_200 none "s" "i" {} 0 emptyStore
    [{ type := str "fact", topic := str "skills", confidence := str "verified",
       tags := [], content := some (str "code here") }]
    (str "know code") (by decide) (by decide) (by decide)

/-! ### Timeout shape of the outbound calls -/

theorem generateResponseCalls_length (p : Str) : (generateResponseCalls p).length ≤ 1 := by
  unfold generateResponseCalls
  cases providerFetchCall p <;> simp

/-- Counterexample for C3 as stated: the single call `generateResponse`
issues for provider "openai" carries no timeout at all — its options have
no abort signal — so it is not bounded by a 15-second timeout. -/
theorem C3_counterexample :
    (generateResponseCalls (str "openai")).map FetchCall.timeoutMs = [none] ∧
    ([none] : List (Option Nat)) ≠ [some 15000] := by
  constructor
  · rfl
  · decide

/-- C3 (amended): the backend's provider call carries no explicit timeout
(the repository's fixed 15-second timeout is on the widget's call to the
backend); a failed call takes the fallback path, and there is no retry —
`handleChat` dispatches at most one provider call per request. -/
theorem C3_amended_single_untimed_call :
    (∀ (p : Str) (c : FetchCall), c ∈ generateResponseCalls p → c.timeoutMs = none) ∧
    (∀ ep : Str, (sendMessageToAPICall ep).timeoutMs = some 15000) ∧
    (∀ (body : BodyParse) (origin : Option Str) (sid ipa : String) (env : Env)
       (now : Nat) (store : KVStore) (kb : List Entry) (gen : GenOutcome),
      (handleChat body origin sid ipa env now store kb gen).providerCalls.length ≤ 1) ∧
    (∀ (origin : Option Str) (sid ipa : String) (env : Env) (now : Nat)
       (store : KVStore) (kb : List Entry) (s : Str),
      trimWs s ≠ [] →
      (checkRateLimit sid ipa now store).1.allowed = true →
      retrieveEntries s kb 5 ≠ [] →
      (handleChat (BodyParse.parsed (some (JVal.jstr s))) origin sid ipa env now store kb
        GenOutcome.fail).resp.body =
        RespBody.chatBody getFallbackResponse DEFAULT_SUGGESTIONS
          (retrieveEntries s kb 5).length) := by
  refine ⟨?_, fun _ => rfl, ?_, ?_⟩
  · intro p c hc
    unfold generateResponseCalls at hc
    cases hp : providerFetchCall p with
    | none =>
      rw [hp] at hc
      cases hc
    | some fc =>
      rw [hp] at hc
      have hcfc : c = fc := by
        cases hc with
        | head => rfl
        | tail _ h => cases h
      subst hcfc
      unfold providerFetchCall at hp
      split_ifs at hp
      · cases hp
        rfl
      · cases hp
        rfl
  · intro body origin sid ipa env now store kb gen
    unfold handleChat
    cases body with
    | parseError => simp
    | parsed message =>
      cases message with
      | none => simp
      | some v =>
        cases v with
        | jother => simp
        | jstr s =>
          dsimp only
          split
          · simp
          · split
            · simp
            · split
              · simp
              · exact generateResponseCalls_length _
  · intro origin sid ipa env now store kb s h1 h2 h3
    exact (handleChat_genFail origin sid ipa env now store kb s h1 h2 h3).2

/-- Witness for C3 (amended) at concrete inputs. -/
theorem C3_amended_witness :
    ((⟨str "https://api.openai.com/v1/chat/completions", str "POST", none⟩ :
      FetchCall).timeoutMs = none) ∧
    (sendMessageToAPICall (str "https://w.example/chat")).timeoutMs = some 15000 ∧
    (handleChat (BodyParse.parsed (some (JVal.jstr (str "know code")))) none "s" "i" {} 0
      emptyStore
      [{ type := str "fact", topic := str "skills", confidence := str "verified",
         tags := [], content := some (str "code here") }]
      GenOutcome.fail).providerCalls.length ≤ 1 ∧
    (handleChat (BodyParse.parsed (some (JVal.jstr (str "know code")))) none "s" "i" {} 0
      emptyStore
      [{ type := str "fact", topic := str "skills", confidence := str "verified",
         tags := [], content := some (str "code here") }]
      GenOutcome.fail).resp.body =
      RespBody.chatBody getFallbackResponse DEFAULT_SUGGESTIONS
        (retrieveEntries (str "know code")
          [{ type := str "fact", topic := str "skills", confidence := str "verified",
             tags := [], content := some (str "code here") }] 5).length := by
  obtain ⟨ha, hb, hc, hd⟩ := C3_amended_single_untimed_call
  exact ⟨ha (str "openai")
      ⟨str "https://api.openai.com/v1/chat/completions", str "POST", none⟩ (by decide),
    hb (str "https://w.example/chat"),
    hc (BodyParse.parsed (some (JVal.jstr (str "know code")))) none "s" "i" {} 0
      emptyStore
      [{ type := str "fact", topic := str "skills", confidence := str "verified",
         tags := [], content := some (str "code here") }] GenOutcome.fail,
    hd none "s" "i" {} 0 emptyStore
      [{ type := str "fact", topic := str "skills", confidence := str "verified",
         tags := [], content := some (str "code here") }]
      (str "know code") (by decide) (by decide) (by decide)⟩

end Distill
